import Mathlib

/-! Ground plane estimation (`open_ptrack/detection/impl/ground_segmentation.hpp`)

A shallow embedding of `GroundplaneEstimation<PointT>`: its constructor, `setInputCloud`,
`tooManyNaN`, `compute` (manual, semi-automatic and automatic branches), `pp_callback`,
`planeHeightComparator` and `colorRegions`, followed by the properties proved about them.

Floating-point values are modelled by `Flt`: NaN, the two infinities, or a finite value.
Comparisons, `fabs` and `isnan` are exact operations and are modelled exactly.  Rounded
arithmetic (`+`, `*`, `/`, `sqrtf`, integer conversion) goes through a `FloatArith` record,
so that general statements hold for whatever arithmetic the platform performs; `ieee32` is
the round-to-nearest-even binary32 instance used to evaluate the code on concrete inputs.

The collaborators from PCL, the C++ library and the operator (plane segmentation, the
three-point plane fit, `std::sort`, `rand`, the operator's picks, the content of the
uninitialised result vector) are the fields of `Env`.
-/

set_option maxRecDepth 8192

namespace OpenPtrack

/-! ## Floating-point values -/

/-- A floating-point value: not-a-number, minus or plus infinity, or the finite value
`n * 2^(-149)`.  Every finite binary32 value is such a multiple (`2^(-149)` is the least
positive `float`), and so is the `double` constant `0.70` of the source; the type also holds
multiples that are not binary32 values, so a statement about all of `Flt` covers every
`float`.  The zeros `-0` and `+0` are not distinguished (they compare equal and the code
never divides by a negative zero). -/
inductive Flt where
  | nan : Flt
  | ninf : Flt
  | pinf : Flt
  | fin (n : Int) : Flt
deriving DecidableEq

namespace Flt

/-- The value of the integer `k`. -/
def ofInt (k : Int) : Flt := fin (k * 2 ^ 149)

/-- The dyadic value `m * 2^(-s)`, for `s ≤ 149`. -/
def dyadic (m : Int) (s : Nat) : Flt := fin (m * 2 ^ (149 - s))

/-- The C `isnan`. -/
def isnan : Flt → Bool
  | nan => true
  | _ => false

/-- The C comparison `x < y`: false as soon as one side is NaN. -/
def lt : Flt → Flt → Bool
  | nan, _ => false
  | _, nan => false
  | ninf, ninf => false
  | ninf, _ => true
  | _, ninf => false
  | pinf, _ => false
  | fin _, pinf => true
  | fin p, fin q => decide (p < q)

/-- The C comparison `x > y`, which is `y < x`. -/
def gt (x y : Flt) : Bool := lt y x

/-- The C comparison `x <= y`: false as soon as one side is NaN. -/
def le : Flt → Flt → Bool
  | nan, _ => false
  | _, nan => false
  | ninf, _ => true
  | _, pinf => true
  | pinf, _ => false
  | fin _, ninf => false
  | fin p, fin q => decide (p ≤ q)

/-- The C comparison `x >= y`, which is `y <= x`. -/
def ge (x y : Flt) : Bool := le y x

/-- The C `fabs`: exact, NaN stays NaN. -/
def fabs : Flt → Flt
  | nan => nan
  | ninf => pinf
  | pinf => pinf
  | fin n => fin |n|

/-- Neither NaN nor infinite. -/
def isFinite : Flt → Bool
  | fin _ => true
  | _ => false

end Flt

/-- The constant `FLT_MAX` of `<cfloat>`: `(2^24 - 1) * 2^104`. -/
def FLT_MAX : Flt := Flt.fin ((2 ^ 24 - 1) * 2 ^ 253)

/-- The `double` literal `0.70` of the automatic branch: the binary64 value nearest to
`7/10`, which is `3152519739159347 * 2^(-52)`. -/
def c070 : Flt := Flt.dyadic 3152519739159347 52

/-- The `float voxel_size = 0.06` of `colorRegions`: the binary32 value nearest to the
literal, `16106127 * 2^(-28)`. -/
def voxel_size : Flt := Flt.dyadic 16106127 28

/-! ## Rounded arithmetic -/

/-- The rounded single-precision operations the code performs. -/
structure FloatArith where
  /-- The sum `x + y` on `float`. -/
  add : Flt → Flt → Flt
  /-- The product `x * y` on `float`. -/
  mul : Flt → Flt → Flt
  /-- The quotient `x / y` on `float`. -/
  div : Flt → Flt → Flt
  /-- The C `sqrtf`. -/
  sqrtf : Flt → Flt
  /-- Conversion of a non-negative integer (`int`, `size_t`) to `float`. -/
  ofNat : Nat → Flt

/-- Loop of `flog2`: halve while at least 2. -/
def flog2Loop : Nat → Nat → Nat
  | 0, _ => 0
  | fuel + 1, n => if 2 ≤ n then flog2Loop fuel (n / 2) + 1 else 0

/-- Floor of the binary logarithm (0 for 0). -/
def flog2 (n : Nat) : Nat := flog2Loop n n

/-- Loop of `isqrt`: set the bits of the root from the top. -/
def isqrtLoop (n : Nat) : Nat → Nat → Nat
  | 0, r => r
  | b + 1, r => isqrtLoop n b (if (r + 2 ^ b) * (r + 2 ^ b) ≤ n then r + 2 ^ b else r)

/-- Integer square root: the greatest `r` with `r * r ≤ n`. -/
def isqrt (n : Nat) : Nat := isqrtLoop n (flog2 n / 2 + 1) 0

/-- The integer nearest to `N / D`, ties to the even one (`0 < D`). -/
def roundNearestEven (N D : Nat) : Nat :=
  if D < 2 * (N % D) ∨ (2 * (N % D) = D ∧ (N / D) % 2 = 1) then N / D + 1 else N / D

/-- Round-to-nearest-even of the non-negative exact value `(N / D) * 2^(-149)` to binary32:
24 significant bits, spacing `2^(-149)` below `2^(-125)` (gradual underflow), overflow to
infinity from `2^128` on. -/
def round32 (N D : Nat) : Flt :=
  let ulp : Nat := 2 ^ (flog2 (N / D) - 23)
  let n : Nat := roundNearestEven N (D * ulp) * ulp
  if 2 ^ 128 * 2 ^ 149 ≤ n then Flt.pinf else Flt.fin n

/-- Negation, exact. -/
def Flt.neg : Flt → Flt
  | Flt.nan => Flt.nan
  | Flt.ninf => Flt.pinf
  | Flt.pinf => Flt.ninf
  | Flt.fin n => Flt.fin (-n)

/-- Rounding of the signed exact value `(N / D) * 2^(-149)`. -/
def round32s (N : Int) (D : Nat) : Flt :=
  if N < 0 then Flt.neg (round32 N.natAbs D) else round32 N.natAbs D

/-- IEEE 754 binary32 addition. -/
def ieeeAdd : Flt → Flt → Flt
  | Flt.nan, _ => Flt.nan
  | _, Flt.nan => Flt.nan
  | Flt.pinf, Flt.ninf => Flt.nan
  | Flt.ninf, Flt.pinf => Flt.nan
  | Flt.pinf, _ => Flt.pinf
  | _, Flt.pinf => Flt.pinf
  | Flt.ninf, _ => Flt.ninf
  | _, Flt.ninf => Flt.ninf
  | Flt.fin a, Flt.fin b => round32s (a + b) 1

/-- Sign of an infinite product or quotient. -/
def infSigned (negative : Bool) : Flt := if negative then Flt.ninf else Flt.pinf

/-- IEEE 754 binary32 multiplication. -/
def ieeeMul : Flt → Flt → Flt
  | Flt.nan, _ => Flt.nan
  | _, Flt.nan => Flt.nan
  | Flt.fin a, Flt.fin b => round32s (a * b) (2 ^ 149)
  | Flt.fin a, Flt.pinf => if a = 0 then Flt.nan else infSigned (decide (a < 0))
  | Flt.fin a, Flt.ninf => if a = 0 then Flt.nan else infSigned (decide (0 < a))
  | Flt.pinf, Flt.fin b => if b = 0 then Flt.nan else infSigned (decide (b < 0))
  | Flt.ninf, Flt.fin b => if b = 0 then Flt.nan else infSigned (decide (0 < b))
  | Flt.pinf, Flt.pinf => Flt.pinf
  | Flt.ninf, Flt.ninf => Flt.pinf
  | Flt.pinf, Flt.ninf => Flt.ninf
  | Flt.ninf, Flt.pinf => Flt.ninf

/-- IEEE 754 binary32 division (a zero divisor is `+0`). -/
def ieeeDiv : Flt → Flt → Flt
  | Flt.nan, _ => Flt.nan
  | _, Flt.nan => Flt.nan
  | Flt.fin a, Flt.fin b =>
      if b = 0 then (if a = 0 then Flt.nan else infSigned (decide (a < 0)))
      else round32s (Int.sign b * a * 2 ^ 149) b.natAbs
  | Flt.fin _, _ => Flt.fin 0
  | Flt.pinf, Flt.fin b => infSigned (decide (b < 0))
  | Flt.ninf, Flt.fin b => infSigned (decide (0 ≤ b))
  | _, _ => Flt.nan

/-- IEEE 754 binary32 square root, correctly rounded: the integer root of the exact
argument, with a sticky half when the root is inexact, is rounded to 24 bits. -/
def ieeeSqrt : Flt → Flt
  | Flt.nan => Flt.nan
  | Flt.ninf => Flt.nan
  | Flt.pinf => Flt.pinf
  | Flt.fin a =>
      if a < 0 then Flt.nan
      else
        let M : Nat := a.natAbs * 2 ^ 149
        let r : Nat := isqrt M
        round32 (2 * r + (if r * r = M then 0 else 1)) 2

/-- IEEE 754 binary32 arithmetic, round-to-nearest-even. -/
def ieee32 : FloatArith where
  add := ieeeAdd
  mul := ieeeMul
  div := ieeeDiv
  sqrtf := ieeeSqrt
  ofNat := fun k => round32 (k * 2 ^ 149) 1

/-! ## Data model -/

/-- A point of a cloud (`PointT`, with the colour field that `colorRegions` writes). -/
structure Point where
  x : Flt
  y : Flt
  z : Flt
  r : Nat
  g : Nat
  b : Nat
deriving DecidableEq

/-- The points of a `pcl::PointCloud<PointT>`. -/
abbrev PointCloud := List Point

/-- An `Eigen::Vector4f` (or the 4-element `Eigen::VectorXf` result): `ck` is component
`[k]`, so a plane `a x + b y + c z + d = 0` has `a = c0`, `b = c1`, `c = c2`, `d = c3`. -/
structure Vec4 where
  c0 : Flt
  c1 : Flt
  c2 : Flt
  c3 : Flt
deriving DecidableEq

/-- An `Eigen::Vector3f`: `ck` is component `[k]`. -/
structure Vec3 where
  c0 : Flt
  c1 : Flt
  c2 : Flt
deriving DecidableEq

/-- A `pcl::PlanarRegion<PointT>`, as far as the code reads it. -/
structure PlanarRegion where
  /-- The plane coefficients `getCoefficients()`. -/
  getCoefficients : Vec4
  /-- The centroid `getCentroid()`. -/
  getCentroid : Vec3
deriving DecidableEq

/-- The lines written to `std::cout`. -/
inductive Msg where
  /-- The line "ERROR: invalid mode for groundplane segmentation. Manual mode is selected." -/
  | invalidMode : Msg
  /-- The line "Manual mode for ground plane estimation." -/
  | manualMode : Msg
  /-- The line "Semi-automatic mode for ground plane estimation." -/
  | semiAutomaticMode : Msg
  /-- The line "Automatic mode for ground plane estimation." -/
  | automaticMode : Msg
  /-- The line "Found n planar regions." -/
  | foundRegions (n : Nat) : Msg
  /-- The line "Shift+click on a floor point, then press Q..." -/
  | shiftClick : Msg
  /-- The line "done." -/
  | done : Msg
  /-- The line "Ground plane coefficients: a, b, c, d." -/
  | groundPlaneCoefficients (v : Vec4) : Msg
  /-- The line "ERROR: no valid ground plane found!" -/
  | noValidGroundPlane : Msg
  /-- The coordinates of a picked point, written by `pp_callback`. -/
  | picked (x y z : Flt) : Msg
deriving DecidableEq

/-- A `pcl::visualization::PointPickingEvent`: `getPointIndex()` and `getPoint(x, y, z)`. -/
structure PickEvent where
  getPointIndex : Int
  x : Flt
  y : Flt
  z : Flt

/-- The state of a `GroundplaneEstimation<PointT>`; `cloud_` is `none` while the pointer
is null. -/
structure GroundplaneEstimation where
  ground_estimation_mode_ : Int
  cloud_ : Option PointCloud
deriving DecidableEq

/-- What is outside the class: the arithmetic of the platform, the PCL and standard
library routines, the operator at the viewer and the content of uninitialised memory. -/
structure Env where
  /-- The single-precision arithmetic. -/
  arith : FloatArith
  /-- Normal estimation followed by `OrganizedMultiPlaneSegmentation::segmentAndRefine`
  (min inliers 500, angular threshold 2 degrees, distance threshold 0.2) on the cloud. -/
  segmentAndRefine : PointCloud → List PlanarRegion
  /-- The `std::sort` of the C++ library, applied with a comparator. -/
  sort : (PlanarRegion → PlanarRegion → Bool) → List PlanarRegion → List PlanarRegion
  /-- The call `SampleConsensusModelPlane::computeModelCoefficients (samples, coeffs)` on a
  model built over the given points: the content of `coeffs` after the call. -/
  computeModelCoefficients : PointCloud → List Nat → Vec4 → Vec4
  /-- Whether a point lies within the given distance of a plane, as
  `SampleConsensusModelPlane::selectWithinDistance` decides it. -/
  withinDistance : Point → Vec4 → Flt → Bool
  /-- The value returned by the `k`-th call of `rand ()` during an invocation. -/
  rand : Nat → Nat
  /-- The point-picking events the operator produces while the viewer spins. -/
  picks : List PickEvent
  /-- The content of `ground_coeffs` after `resize (4)`, which does not write it. -/
  uninitialised : Vec4

/-! ## Constructor and setter -/

/-- The constructor: the new instance and what it writes to `std::cout`. -/
def GroundplaneEstimation.construct (ground_estimation_mode : Int) :
    GroundplaneEstimation × List Msg :=
  let self : GroundplaneEstimation := ⟨ground_estimation_mode, none⟩
  if ground_estimation_mode > 3 ∨ ground_estimation_mode < 0 then
    ({ self with ground_estimation_mode_ := 0 }, [Msg.invalidMode])
  else (self, [])

/-- The setter `setInputCloud`. -/
def GroundplaneEstimation.setInputCloud (self : GroundplaneEstimation) (cloud : PointCloud) :
    GroundplaneEstimation :=
  { self with cloud_ := some cloud }

/-! ## `tooManyNaN` -/

/-- Whether a point has a NaN coordinate: the test of the loop of `tooManyNaN`. -/
def hasNaN (p : Point) : Bool := p.x.isnan || p.y.isnan || p.z.isnan

/-- The counting loop of `tooManyNaN`, from the current point on, with the current value
of `nan_counter`. -/
def nanLoop : List Point → Nat → Nat
  | [], nan_counter => nan_counter
  | p :: rest, nan_counter =>
      if p.x.isnan || p.y.isnan || p.z.isnan then nanLoop rest (nan_counter + 1)
      else nanLoop rest nan_counter

/-- The method `tooManyNaN (cloud, max_ratio)`; cloud sizes are below `2^31`, so that the
`int` counter and the `unsigned int` loop index do not wrap. -/
def tooManyNaN (A : FloatArith) (cloud : PointCloud) (max_ratio : Flt) : Bool :=
  let nan_counter := nanLoop cloud 0
  if Flt.gt (A.div (A.ofNat nan_counter) (A.ofNat cloud.length)) max_ratio then true
  else false

/-- The number of points with a NaN coordinate, as the specification words it. -/
def nanCount (cloud : PointCloud) : Nat := cloud.countP hasNaN

/-- Whether a point has a non-finite (NaN or infinite) coordinate. -/
def hasNonFinite (p : Point) : Bool := !(p.x.isFinite && p.y.isFinite && p.z.isFinite)

/-- The number of points with a non-finite coordinate. -/
def nonFiniteCount (cloud : PointCloud) : Nat := cloud.countP hasNonFinite

/-! ## Picking points -/

/-- The callback `pp_callback`: the accumulated `clicked_points_3d` after the event, and
the line written. -/
def pp_callback (event : PickEvent) (clicked_points_3d : PointCloud) :
    PointCloud × List Msg :=
  if event.getPointIndex = -1 then (clicked_points_3d, [])
  else
    let current_point : Point := ⟨event.x, event.y, event.z, 0, 0, 0⟩
    (clicked_points_3d ++ [current_point], [Msg.picked event.x event.y event.z])

/-- The call `viewer.spin ()` with `pp_callback` registered: every event of the operator
goes through the callback, in order. -/
def spin : List PickEvent → PointCloud × List Msg → PointCloud × List Msg
  | [], acc => acc
  | event :: rest, acc =>
      spin rest ((pp_callback event acc.1).1, acc.2 ++ (pp_callback event acc.1).2)

/-! ## Manual branch -/

/-- The loop `while (points.size () > 3) points.erase (points.begin ())`. -/
def keepLastThree : List Point → List Point
  | [] => []
  | p :: rest => if (p :: rest).length > 3 then keepLastThree rest else p :: rest

/-- The loop `for (i = 0; i < size; i++) clicked_points_indices.push_back (i)`, with the
number of iterations left, the current `i` and the indices pushed so far. -/
def pushIndices : Nat → Nat → List Nat → List Nat
  | 0, _, clicked_points_indices => clicked_points_indices
  | left + 1, i, clicked_points_indices =>
      pushIndices left (i + 1) (clicked_points_indices ++ [i])

/-! ## Semi-automatic branch -/

/-- The expression `(float) (fabs ((a*X + b*Y + c*Z + d))) / (sqrtf (a*a + b*b + c*c))`. -/
def planeDistance (A : FloatArith) (coeffs : Vec4) (X Y Z : Flt) : Flt :=
  let a := coeffs.c0
  let b := coeffs.c1
  let c := coeffs.c2
  let d := coeffs.c3
  A.div (Flt.fabs (A.add (A.add (A.add (A.mul a X) (A.mul b Y)) (A.mul c Z)) d))
    (A.sqrtf (A.add (A.add (A.mul a a) (A.mul b b)) (A.mul c c)))

/-- The loop that finds the plane closest to the clicked point, from region `i` on, with
the current `index` and `min_distance`; the result is the final `index`. -/
def closestLoop (A : FloatArith) (X Y Z : Flt) : List PlanarRegion → Nat → Nat → Flt → Nat
  | [], _, index, _ => index
  | region :: rest, i, index, min_distance =>
      let distance := planeDistance A region.getCoefficients X Y Z
      if Flt.lt distance min_distance then closestLoop A X Y Z rest (i + 1) i distance
      else closestLoop A X Y Z rest (i + 1) index min_distance

/-! ## Automatic branch -/

/-- The loop that removes the planes not compatible with a camera roll near 0: region `i`
is erased when `fabs (b) < 0.70`, otherwise `i` advances. -/
def eraseLoop (regions : List PlanarRegion) (i : Nat) : List PlanarRegion :=
  if h : i < regions.length then
    if Flt.lt (Flt.fabs regions[i].getCoefficients.c1) c070 then
      eraseLoop (regions.eraseIdx i) i
    else eraseLoop regions (i + 1)
  else regions
termination_by regions.length - i
decreasing_by
  · simp only [List.length_eraseIdx, h, if_true]
    omega
  · omega

/-- The comparator `planeHeightComparator`. -/
def planeHeightComparator (region1 region2 : PlanarRegion) : Bool :=
  Flt.gt region1.getCentroid.c1 region2.getCentroid.c1

/-! ## `colorRegions` -/

/-- Modelled from the spec: `SampleConsensusModelPlane::selectWithinDistance` on a model
built over the whole cloud selects the indices of all cloud points within the given
distance of the plane; the distance test itself is `Env.withinDistance`. -/
def selectWithinDistance (E : Env) (cloud : PointCloud) (model : Vec4) (threshold : Flt) :
    List Nat :=
  (List.range cloud.length).filter fun i =>
    match cloud[i]? with
    | some p => E.withinDistance p model threshold
    | none => false

/-- The three assignments `colored_cloud->points.at (i).r = r` (and `g`, `b`); `none` when
`at` throws `std::out_of_range`. -/
def paintAt (colored_cloud : PointCloud) (i r g b : Nat) : Option PointCloud :=
  match colored_cloud[i]? with
  | none => none
  | some p => some (colored_cloud.set i { p with r := r, g := g, b := b })

/-- The loop over the inliers that paints each of them. -/
def paintLoop (r g b : Nat) : List Nat → PointCloud → Option PointCloud
  | [], colored_cloud => some colored_cloud
  | j :: rest, colored_cloud =>
      match paintAt colored_cloud j r g b with
      | none => none
      | some painted => paintLoop r g b rest painted

/-- The loop of `colorRegions` over the regions, with the number `k` of calls of `rand`
made so far. -/
def colorLoop (E : Env) (cloud : PointCloud) :
    List PlanarRegion → Nat → PointCloud → Option PointCloud
  | [], _, colored_cloud => some colored_cloud
  | region :: rest, k, colored_cloud =>
      let inliers := selectWithinDistance E cloud region.getCoefficients voxel_size
      let r := E.rand k % 256
      let g := E.rand (k + 1) % 256
      let b := E.rand (k + 2) % 256
      match paintLoop r g b inliers colored_cloud with
      | none => none
      | some painted => colorLoop E cloud rest (k + 3) painted

/-- The method `colorRegions (regions, index)` on the cloud `cloud_`: the coloured copy,
or `none` when an access is out of range.  The default value of `index` is in the class
declaration; according to the specification it is `-1`. -/
def colorRegions (E : Env) (cloud : PointCloud) (regions : List PlanarRegion) (index : Int) :
    Option PointCloud :=
  match colorLoop E cloud regions 0 cloud with
  | none => none
  | some colored_cloud =>
      if index ≥ 0 ∧ regions ≠ [] then
        match regions[index.toNat]? with
        | none => none
        | some region =>
            paintLoop 255 0 0 (selectWithinDistance E cloud region.getCoefficients voxel_size)
              colored_cloud
      else some colored_cloud

/-! ## `compute` -/

/-- The observable outcome of `compute`: the returned vector, the lines written to
`std::cout` and the clouds handed to a viewer. -/
structure Output where
  ground_coeffs : Vec4
  cout : List Msg
  shown : List PointCloud
deriving DecidableEq

/-- The branch `if (ground_estimation_mode_ == 0)`. -/
def manualBranch (E : Env) (cloud : PointCloud) (s : Output) : Option Output :=
  let session := spin E.picks ([], [])
  let clicked_points_3d := keepLastThree session.1
  let clicked_points_indices := pushIndices clicked_points_3d.length 0 []
  let ground_coeffs :=
    E.computeModelCoefficients clicked_points_3d clicked_points_indices s.ground_coeffs
  some
    { ground_coeffs := ground_coeffs
      cout := s.cout ++ [Msg.manualMode] ++ session.2 ++
        [Msg.done, Msg.groundPlaneCoefficients ground_coeffs]
      shown := s.shown ++ [cloud] }

/-- The branch `if (ground_estimation_mode_ == 1)`; `none` when the last clicked point is
read although no point was clicked. -/
def semiAutomaticBranch (E : Env) (cloud : PointCloud) (s : Output) : Option Output :=
  let regions := E.segmentAndRefine cloud
  let cout := s.cout ++ [Msg.semiAutomaticMode, Msg.foundRegions regions.length]
  match colorRegions E cloud regions (-1) with
  | none => none
  | some colored_cloud =>
      if regions.length > 0 then
        let session := spin E.picks ([], [])
        match session.1.getLast? with
        | none => none
        | some last =>
            let index := closestLoop E.arith last.x last.y last.z regions 0 0 FLT_MAX
            match regions[index]? with
            | none => none
            | some region =>
                let coeffs := region.getCoefficients
                let ground_coeffs : Vec4 := ⟨coeffs.c0, coeffs.c1, coeffs.c2, coeffs.c3⟩
                some
                  { ground_coeffs := ground_coeffs
                    cout := cout ++ [Msg.shiftClick] ++ session.2 ++
                      [Msg.done, Msg.groundPlaneCoefficients coeffs]
                    shown := s.shown ++ [colored_cloud] }
      else some { s with cout := cout }

/-- The branch `if ((ground_estimation_mode_ == 2) || (ground_estimation_mode_ == 3))`. -/
def automaticBranch (E : Env) (ground_estimation_mode_ : Int) (cloud : PointCloud)
    (s : Output) : Option Output :=
  let segmented := E.segmentAndRefine cloud
  let compatible := eraseLoop segmented 0
  let regions := E.sort planeHeightComparator compatible
  let cout := s.cout ++ [Msg.automaticMode]
  match colorRegions E cloud regions 0 with
  | none => none
  | some colored_cloud =>
      match regions with
      | first :: _ =>
          let coeffs := first.getCoefficients
          let ground_coeffs : Vec4 := ⟨coeffs.c0, coeffs.c1, coeffs.c2, coeffs.c3⟩
          some
            { ground_coeffs := ground_coeffs
              cout := cout ++ [Msg.groundPlaneCoefficients coeffs]
              shown :=
                if ground_estimation_mode_ = 2 then s.shown ++ [colored_cloud] else s.shown }
      | [] => some { s with cout := cout ++ [Msg.noValidGroundPlane] }

/-- The method `compute ()`: the three mode tests run one after the other on the result
vector, which starts uninitialised; `none` stands for undefined behaviour (a null
`cloud_`, an access out of range). -/
def compute (E : Env) (self : GroundplaneEstimation) : Option Output :=
  match self.cloud_ with
  | none => none
  | some cloud =>
      let s0 : Output := ⟨E.uninitialised, [], []⟩
      (if self.ground_estimation_mode_ = 0 then manualBranch E cloud s0 else some s0).bind
        fun s1 =>
          (if self.ground_estimation_mode_ = 1 then semiAutomaticBranch E cloud s1
            else some s1).bind
            fun s2 =>
              if self.ground_estimation_mode_ = 2 ∨ self.ground_estimation_mode_ = 3 then
                automaticBranch E self.ground_estimation_mode_ cloud s2
              else some s2

/-! ## Specification-level notions -/

/-- The clicked points accumulated when the viewer session of an invocation ends. -/
def clickedPoints (E : Env) : PointCloud := (spin E.picks ([], [])).1

/-- The number of points with an infinite coordinate and no NaN coordinate. -/
def infiniteOnlyCount (cloud : PointCloud) : Nat :=
  cloud.countP fun p => hasNonFinite p && !hasNaN p

/-- Whether a region stays in the list in the removal loop of the automatic branch: the
test `fabs (b) < 0.70` fails. -/
def compatible (region : PlanarRegion) : Bool :=
  !(Flt.lt (Flt.fabs region.getCoefficients.c1) c070)

/-- The vector `compute` returns when the calls of `colorRegions` are skipped: the
selection of the three branches, without the colouring, the viewer and the output lines. -/
def computeWithoutColoring (E : Env) (self : GroundplaneEstimation) : Option Vec4 :=
  match self.cloud_ with
  | none => none
  | some cloud =>
      if self.ground_estimation_mode_ = 0 then
        some (E.computeModelCoefficients (keepLastThree (clickedPoints E))
          (pushIndices (keepLastThree (clickedPoints E)).length 0 []) E.uninitialised)
      else if self.ground_estimation_mode_ = 1 then
        if (E.segmentAndRefine cloud).length > 0 then
          match (clickedPoints E).getLast? with
          | none => none
          | some last =>
              match (E.segmentAndRefine cloud)[closestLoop E.arith last.x last.y last.z
                (E.segmentAndRefine cloud) 0 0 FLT_MAX]? with
              | none => none
              | some region => some region.getCoefficients
        else some E.uninitialised
      else if self.ground_estimation_mode_ = 2 ∨ self.ground_estimation_mode_ = 3 then
        match E.sort planeHeightComparator (eraseLoop (E.segmentAndRefine cloud) 0) with
        | first :: _ => some first.getCoefficients
        | [] => some E.uninitialised
      else some E.uninitialised

/-- A comparator is a strict weak ordering on the elements of a list: irreflexive,
transitive, and with a transitive incomparability. -/
def StrictWeakOn (cmp : PlanarRegion → PlanarRegion → Bool) (l : List PlanarRegion) : Prop :=
  (∀ a ∈ l, cmp a a = false) ∧
  (∀ a ∈ l, ∀ b ∈ l, ∀ c ∈ l, cmp a b = true → cmp b c = true → cmp a c = true) ∧
  (∀ a ∈ l, ∀ b ∈ l, ∀ c ∈ l, cmp a b = false → cmp b a = false → cmp b c = false →
    cmp c b = false → cmp a c = false ∧ cmp c a = false)

/-- The contract of `std::sort`: when the comparator is a strict weak ordering on the
elements, the result is a permutation in which no element precedes an earlier one. -/
def StdSortContract
    (sort : (PlanarRegion → PlanarRegion → Bool) → List PlanarRegion → List PlanarRegion) :
    Prop :=
  ∀ cmp l, StrictWeakOn cmp l →
    (sort cmp l).Perm l ∧ (sort cmp l).Pairwise (fun a b => cmp b a = false)

/-- Whether the exact ratio `n / total` (no rounding, `0 < total`) is strictly greater
than a floating-point value: for the finite value `m * 2^(-149)` this is
`m * total < n * 2^149`. -/
def exactRatioGt (n total : Nat) : Flt → Bool
  | Flt.fin m => decide (m * total < n * 2 ^ 149)
  | Flt.ninf => true
  | _ => false

/-! ## Example inputs -/

/-- Insertion of an element before the first element it precedes. -/
def orderedInsert (cmp : PlanarRegion → PlanarRegion → Bool) (x : PlanarRegion) :
    List PlanarRegion → List PlanarRegion
  | [] => [x]
  | y :: rest => if cmp x y then x :: y :: rest else y :: orderedInsert cmp x rest

/-- Insertion sort, one admissible behaviour of `std::sort`. -/
def insertionSort (cmp : PlanarRegion → PlanarRegion → Bool) :
    List PlanarRegion → List PlanarRegion
  | [] => []
  | x :: rest => orderedInsert cmp x (insertionSort cmp rest)

/-- The plane with integer coefficients `a x + b y + c z + d = 0` and centroid
`(0, cy, 0)`. -/
def planeAt (a b c d cy : Int) : PlanarRegion :=
  ⟨⟨Flt.ofInt a, Flt.ofInt b, Flt.ofInt c, Flt.ofInt d⟩, ⟨Flt.ofInt 0, Flt.ofInt cy, Flt.ofInt 0⟩⟩

/-- A point with integer coordinates, black. -/
def pointAt (x y z : Int) : Point := ⟨Flt.ofInt x, Flt.ofInt y, Flt.ofInt z, 0, 0, 0⟩

/-- The pick of the point `(x, y, z)`. -/
def pickAt (x y z : Flt) : PickEvent := ⟨0, x, y, z⟩

/-- The all-zero vector. -/
def zeroVec : Vec4 := ⟨Flt.ofInt 0, Flt.ofInt 0, Flt.ofInt 0, Flt.ofInt 0⟩

/-- A region whose coefficient `b` is NaN, with centroid height 2. -/
def nanPlane : PlanarRegion :=
  ⟨⟨Flt.ofInt 0, Flt.nan, Flt.ofInt 0, Flt.ofInt 0⟩, ⟨Flt.ofInt 0, Flt.ofInt 2, Flt.ofInt 0⟩⟩

/-- A horizontal region (`b = 1`) whose centroid `y` is NaN. -/
def nanCentroidPlane : PlanarRegion :=
  ⟨⟨Flt.ofInt 0, Flt.ofInt 1, Flt.ofInt 0, Flt.ofInt 0⟩, ⟨Flt.ofInt 0, Flt.nan, Flt.ofInt 0⟩⟩

/-- The plane `x + FLT_MAX = 0`, with centroid height 0. -/
def farPlane : PlanarRegion :=
  ⟨⟨Flt.ofInt 1, Flt.ofInt 0, Flt.ofInt 0, FLT_MAX⟩, ⟨Flt.ofInt 0, Flt.ofInt 0, Flt.ofInt 0⟩⟩

/-- An environment with binary32 arithmetic and insertion sort, in which segmentation
yields the given regions and the operator makes the given picks; the result vector starts
as zeros, every point counts as an inlier and the plane fit leaves its output untouched. -/
def exampleEnv (regions : List PlanarRegion) (picks : List PickEvent) : Env where
  arith := ieee32
  segmentAndRefine := fun _ => regions
  sort := insertionSort
  computeModelCoefficients := fun _ _ v => v
  withinDistance := fun _ _ _ => true
  rand := fun k => 37 * k + 11
  picks := picks
  uninitialised := zeroVec

/-- A point whose `x` is NaN. -/
def nanPoint : Point := ⟨Flt.nan, Flt.ofInt 0, Flt.ofInt 0, 0, 0, 0⟩

/-- A cloud of 10 points of which 7 have a NaN coordinate. -/
def sevenOfTen : PointCloud :=
  [nanPoint, nanPoint, nanPoint, nanPoint, nanPoint, nanPoint, nanPoint,
    pointAt 0 0 0, pointAt 1 0 0, pointAt 2 0 0]

/-- An instance in the given mode on a cloud of one point. -/
def exampleInstance (mode : Int) : GroundplaneEstimation :=
  (GroundplaneEstimation.construct mode).1.setInputCloud [pointAt 0 0 0]

/-! ## Facts about comparisons -/

theorem Flt.lt_irrefl (x : Flt) : Flt.lt x x = false := by
  cases x <;> simp [Flt.lt]

theorem Flt.lt_trans {x y z : Flt} (h1 : Flt.lt x y = true) (h2 : Flt.lt y z = true) :
    Flt.lt x z = true := by
  cases x <;> cases y <;> cases z <;> simp_all [Flt.lt]
  omega

theorem Flt.lt_asymm {x y : Flt} (h : Flt.lt x y = true) : Flt.lt y x = false := by
  cases x <;> cases y <;> simp_all [Flt.lt]
  omega

/-- On values that are not NaN, `x < y` fails exactly when `x >= y` holds. -/
theorem Flt.lt_false_iff_ge {x y : Flt} (hx : x.isnan = false) (hy : y.isnan = false) :
    Flt.lt x y = false ↔ Flt.ge x y = true := by
  cases x <;> cases y <;> simp_all [Flt.lt, Flt.ge, Flt.le, Flt.isnan]

/-- A value below a bound is below every non-NaN value that is not below the bound. -/
theorem Flt.lt_of_lt_of_not_lt {a m d : Flt} (h1 : Flt.lt a m = true)
    (h2 : Flt.lt d m = false) (hd : d.isnan = false) : Flt.lt a d = true := by
  cases a <;> cases m <;> cases d <;> simp_all [Flt.lt, Flt.isnan]
  omega

/-- Incomparability under `<` is transitive on values that are not NaN. -/
theorem Flt.incomparable_trans {x y z : Flt} (hy : y.isnan = false)
    (h1 : Flt.lt x y = false) (h2 : Flt.lt y x = false) (h3 : Flt.lt y z = false)
    (h4 : Flt.lt z y = false) : Flt.lt x z = false ∧ Flt.lt z x = false := by
  cases x <;> cases y <;> cases z <;> simp_all [Flt.lt, Flt.isnan]
  omega

theorem Flt.le_false_of_lt {x y : Flt} (h : Flt.lt x y = true) : Flt.le y x = false := by
  cases x <;> cases y <;> simp_all [Flt.lt, Flt.le]

/-- On a binary32 value `b = ± m * 2^k * 2^(-149)` with `m < 2^24`, the test
`fabs (b) < 0.70` against the `double` literal decides `|b| < 7/10` exactly: no binary32
value lies between the literal and `7/10`. -/
theorem fabs_lt_c070_iff (n : Int) (h : ∃ m k : Nat, m < 2 ^ 24 ∧ n.natAbs = m * 2 ^ k) :
    Flt.lt (Flt.fabs (Flt.fin n)) c070 = true ↔ 10 * n.natAbs < 7 * 2 ^ 149 := by
  have habs : |n| = (n.natAbs : Int) := Int.abs_eq_natAbs n
  have hiff : Flt.lt (Flt.fabs (Flt.fin n)) c070 = true ↔
      n.natAbs < 3152519739159347 * 2 ^ 97 := by
    simp only [Flt.fabs, c070, Flt.dyadic, Flt.lt, decide_eq_true_eq, habs]
    norm_cast
  rw [hiff]
  obtain ⟨m, k, hm, hN⟩ := h
  generalize n.natAbs = N at hN ⊢
  constructor
  · intro h1
    norm_num at h1 ⊢
    omega
  · intro h1
    by_contra h2
    have hk : 125 ≤ k := by
      by_contra hk
      have hk1 : k ≤ 124 := by omega
      have h3 : 2 ^ k ≤ 2 ^ 124 := Nat.pow_le_pow_right (by norm_num) hk1
      have h4 : m * 2 ^ k ≤ m * 2 ^ 124 := Nat.mul_le_mul_left m h3
      norm_num at h2 h4 hm
      omega
    obtain ⟨j, rfl⟩ : ∃ j, k = 125 + j := ⟨k - 125, by omega⟩
    have h5 : N = (m * 2 ^ j) * 2 ^ 125 := by
      rw [hN, pow_add]
      ring
    generalize m * 2 ^ j = q at h5
    norm_num at h1 h2 h5
    omega

theorem Flt.lt_isnan_left {x y : Flt} (h : Flt.lt x y = true) : x.isnan = false := by
  cases x <;> cases y <;> simp_all [Flt.lt, Flt.isnan]

theorem Flt.lt_isnan_right {x y : Flt} (h : Flt.lt x y = true) : y.isnan = false := by
  cases x <;> cases y <;> simp_all [Flt.lt, Flt.isnan]

/-! ## Facts about the binary32 arithmetic -/

theorem flog2Loop_spec (fuel n : Nat) (hf : n ≤ fuel) (hn : 1 ≤ n) :
    2 ^ flog2Loop fuel n ≤ n ∧ n < 2 ^ (flog2Loop fuel n + 1) := by
  induction fuel generalizing n with
  | zero => omega
  | succ fuel ih =>
    unfold flog2Loop
    by_cases h : 2 ≤ n
    · rw [if_pos h]
      have h1 := ih (n / 2) (by omega) (by omega)
      rw [pow_succ] at h1 ⊢
      rw [pow_succ]
      constructor
      · omega
      · omega
    · rw [if_neg h]
      have : n = 1 := by omega
      subst this
      simp

/-- `flog2 n` is the floor of the binary logarithm of `n ≥ 1`. -/
theorem flog2_spec (n : Nat) (hn : 1 ≤ n) : 2 ^ flog2 n ≤ n ∧ n < 2 ^ (flog2 n + 1) :=
  flog2Loop_spec n n (Nat.le_refl n) hn

theorem isqrtLoop_spec (n b r : Nat) (h1 : r * r ≤ n) (h2 : n < (r + 2 ^ b) * (r + 2 ^ b)) :
    isqrtLoop n b r * isqrtLoop n b r ≤ n ∧
      n < (isqrtLoop n b r + 1) * (isqrtLoop n b r + 1) := by
  induction b generalizing r with
  | zero => simpa [isqrtLoop] using ⟨h1, h2⟩
  | succ b ih =>
    unfold isqrtLoop
    by_cases h : (r + 2 ^ b) * (r + 2 ^ b) ≤ n
    · rw [if_pos h]
      apply ih _ h
      have e : r + 2 ^ b + 2 ^ b = r + 2 ^ (b + 1) := by rw [pow_succ]; omega
      rw [e]
      exact h2
    · rw [if_neg h]
      exact ih _ h1 (by omega)

/-- `isqrt n` is the floor of the square root of `n`. -/
theorem isqrt_spec (n : Nat) : isqrt n * isqrt n ≤ n ∧ n < (isqrt n + 1) * (isqrt n + 1) := by
  apply isqrtLoop_spec
  · simp
  · rw [Nat.zero_add, ← pow_add]
    rcases Nat.eq_zero_or_pos n with h | h
    · subst h
      simp
    · have h1 := (flog2_spec n h).2
      have h2 : flog2 n + 1 ≤ flog2 n / 2 + 1 + (flog2 n / 2 + 1) := by omega
      exact lt_of_lt_of_le h1 (Nat.pow_le_pow_right (by norm_num) h2)

/-- `roundNearestEven N D` is an integer nearest to `N / D`, and the even one of the two
when `N / D` lies half-way. -/
theorem roundNearestEven_spec (N D : Nat) (hD : 0 < D) :
    2 * N ≤ 2 * (roundNearestEven N D * D) + D ∧ 2 * (roundNearestEven N D * D) ≤ 2 * N + D ∧
    (2 * N = 2 * (roundNearestEven N D * D) + D ∨ 2 * (roundNearestEven N D * D) = 2 * N + D →
      roundNearestEven N D % 2 = 0) := by
  have hdm := Nat.div_add_mod N D
  have hlt := Nat.mod_lt N hD
  have hm : N / D * D = D * (N / D) := Nat.mul_comm _ _
  unfold roundNearestEven
  by_cases h : D < 2 * (N % D) ∨ (2 * (N % D) = D ∧ (N / D) % 2 = 1)
  · rw [if_pos h, Nat.add_mul, Nat.one_mul, hm]
    refine ⟨by omega, by omega, ?_⟩
    intro h3
    rcases h with h | h
    · omega
    · omega
  · rw [if_neg h, hm]
    refine ⟨by omega, by omega, ?_⟩
    intro h3
    omega

/-- The binary32 arithmetic on known values: `3/10` and `7/10` round to `0.3f` and `0.7f`,
`FLT_MAX + FLT_MAX` overflows, `2^24 + 1` converts to `2^24`, `sqrtf (2)` is
`11863283 * 2^(-23)`, `0/0` is NaN, and half of one and of three least subnormals is rounded
to the even neighbour. -/
theorem ieee32_values :
    ieee32.div (ieee32.ofNat 3) (ieee32.ofNat 10) = Flt.dyadic 5033165 24 ∧
    ieee32.div (ieee32.ofNat 7) (ieee32.ofNat 10) = Flt.dyadic 11744051 24 ∧
    ieee32.add FLT_MAX FLT_MAX = Flt.pinf ∧
    ieee32.ofNat 16777217 = Flt.ofInt 16777216 ∧
    ieee32.sqrtf (Flt.ofInt 2) = Flt.dyadic 11863283 23 ∧
    ieee32.div (Flt.ofInt 0) (Flt.ofInt 0) = Flt.nan ∧
    ieee32.mul (Flt.fin 1) (Flt.dyadic 1 1) = Flt.fin 0 ∧
    ieee32.mul (Flt.fin 3) (Flt.dyadic 1 1) = Flt.fin 2 := by
  decide

/-! ## Constructor -/

/-- C4: for every integer `m` the constructor stores `m` when `0 ≤ m ≤ 3` and `0`
otherwise, writes the invalid-mode line exactly when `m < 0` or `m > 3`, so the stored
mode lies in `[0, 3]`; and the instance built is the one built with the stored mode, hence
with an out-of-range `m` the one built with `0`, on which `compute` does the same. -/
theorem construct_clamps_mode (m : Int) :
    (GroundplaneEstimation.construct m).1.ground_estimation_mode_
        = (if 0 ≤ m ∧ m ≤ 3 then m else 0) ∧
    (Msg.invalidMode ∈ (GroundplaneEstimation.construct m).2 ↔ (m < 0 ∨ m > 3)) ∧
    0 ≤ (GroundplaneEstimation.construct m).1.ground_estimation_mode_ ∧
    (GroundplaneEstimation.construct m).1.ground_estimation_mode_ ≤ 3 ∧
    (GroundplaneEstimation.construct m).1
        = (GroundplaneEstimation.construct (if 0 ≤ m ∧ m ≤ 3 then m else 0)).1 ∧
    ((m < 0 ∨ m > 3) →
      (GroundplaneEstimation.construct m).1 = (GroundplaneEstimation.construct 0).1 ∧
      ∀ (E : Env) (cloud : PointCloud),
        compute E ((GroundplaneEstimation.construct m).1.setInputCloud cloud)
          = compute E ((GroundplaneEstimation.construct 0).1.setInputCloud cloud)) := by
  by_cases h : m > 3 ∨ m < 0
  · have h1 : ¬ (0 ≤ m ∧ m ≤ 3) := by omega
    have h2 : m < 0 ∨ m > 3 := by omega
    have hc : (GroundplaneEstimation.construct m).1 = (GroundplaneEstimation.construct 0).1 := by
      simp [GroundplaneEstimation.construct, h]
    refine ⟨?_, ?_, ?_, ?_, ?_, ?_⟩
    · simp [GroundplaneEstimation.construct, h, h1]
    · simp [GroundplaneEstimation.construct, h, h2]
    · simp [GroundplaneEstimation.construct, h]
    · simp [GroundplaneEstimation.construct, h]
    · rw [if_neg h1]; exact hc
    · intro _
      exact ⟨hc, fun E cloud => by rw [hc]⟩
  · have h1 : 0 ≤ m ∧ m ≤ 3 := by omega
    have h2 : ¬ (m < 0 ∨ m > 3) := by omega
    refine ⟨?_, ?_, ?_, ?_, ?_, ?_⟩
    · simp [GroundplaneEstimation.construct, h, h1]
    · simp [GroundplaneEstimation.construct, h, h2]
    · simp [GroundplaneEstimation.construct, h]; omega
    · simp [GroundplaneEstimation.construct, h]; omega
    · rw [if_pos h1]
    · intro h3
      exact absurd h3 h2

/-! ## `tooManyNaN` -/

/-- The counting loop adds the number of points with a NaN coordinate. -/
theorem nanLoop_eq (cloud : PointCloud) (k : Nat) : nanLoop cloud k = k + nanCount cloud := by
  induction cloud generalizing k with
  | nil => simp [nanLoop, nanCount]
  | cons p rest ih =>
    unfold nanLoop
    by_cases h : (p.x.isnan || p.y.isnan || p.z.isnan) = true
    · have hp : hasNaN p = true := h
      rw [if_pos h, ih]
      simp [nanCount, List.countP_cons, hp]
      omega
    · have hp : ¬ (hasNaN p = true) := h
      rw [if_neg h, ih]
      simp [nanCount, List.countP_cons, hp]

/-- A point with a NaN coordinate has a non-finite coordinate. -/
theorem hasNonFinite_of_hasNaN (p : Point) (h : hasNaN p = true) : hasNonFinite p = true := by
  rcases p with ⟨x, y, z, r, g, b⟩
  cases x <;> cases y <;> cases z <;> simp_all [hasNaN, hasNonFinite, Flt.isnan, Flt.isFinite]

/-- The points with a non-finite coordinate are those with a NaN coordinate and those
with an infinite coordinate only. -/
theorem nonFiniteCount_eq (cloud : PointCloud) :
    nonFiniteCount cloud = nanCount cloud + infiniteOnlyCount cloud := by
  induction cloud with
  | nil => simp [nonFiniteCount, nanCount, infiniteOnlyCount]
  | cons p rest ih =>
    simp only [nonFiniteCount, nanCount, infiniteOnlyCount, List.countP_cons] at ih ⊢
    by_cases hn : hasNaN p = true
    · have hf := hasNonFinite_of_hasNaN p hn
      simp [hn, hf]
      omega
    · by_cases hf : hasNonFinite p = true
      · simp [hn, hf]
        omega
      · simp [hn, hf]
        omega

/-- C3, amended: `tooManyNaN (cloud, maxRatio)` is true exactly when the single-precision
quotient `(float) nanCount / totalCount`, as the arithmetic of the platform rounds it, is
strictly greater than `maxRatio`, where `nanCount` is the number of points with a NaN `x`,
`y` or `z`; and with binary32 arithmetic, on every 10-point cloud with 3 NaN points it is
true for `maxRatio = 0.2f` and false for `maxRatio = 0.3f`. -/
theorem tooManyNaN_iff_ratio (A : FloatArith) (cloud : PointCloud) (max_ratio : Flt) :
    (tooManyNaN A cloud max_ratio = true ↔
      Flt.gt (A.div (A.ofNat (nanCount cloud)) (A.ofNat cloud.length)) max_ratio = true) ∧
    (cloud.length = 10 → nanCount cloud = 3 →
      tooManyNaN ieee32 cloud (Flt.dyadic 13421773 26) = true ∧
      tooManyNaN ieee32 cloud (Flt.dyadic 5033165 24) = false) := by
  constructor
  · simp [tooManyNaN, nanLoop_eq]
  · intro hl hn
    simp only [tooManyNaN, nanLoop_eq, hl, hn, Nat.zero_add]
    decide

/-- C3, counterexample: on a 10-point cloud with 7 NaN points and `maxRatio = 0.7f`, the
binary32 value `11744051 * 2^(-24)` just below `7/10`, the exact ratio `7/10` is strictly
greater than `maxRatio`, but the quotient rounds to `0.7f` itself and `tooManyNaN`
returns false. -/
theorem tooManyNaN_rounded_quotient :
    sevenOfTen.length = 10 ∧ nanCount sevenOfTen = 7 ∧
    exactRatioGt (nanCount sevenOfTen) sevenOfTen.length (Flt.dyadic 11744051 24) = true ∧
    (11744051 : ℚ) / 2 ^ 24 < 7 / 10 ∧
    ieee32.div (ieee32.ofNat 7) (ieee32.ofNat 10) = Flt.dyadic 11744051 24 ∧
    tooManyNaN ieee32 sevenOfTen (Flt.dyadic 11744051 24) = false := by
  refine ⟨by decide, by decide, by decide, by norm_num, by decide, by decide⟩

/-- C7, amended: `tooManyNaN` is true exactly when the single-precision quotient of the
number of points with a NaN `x`, `y` or `z` by the number of points is strictly greater
than `maxRatio`: of the points with a non-finite coordinate, those with an infinite
coordinate and no NaN coordinate are left out of the count. -/
theorem tooManyNaN_ignores_infinite (A : FloatArith) (cloud : PointCloud) (max_ratio : Flt) :
    infiniteOnlyCount cloud ≤ nonFiniteCount cloud ∧
    (tooManyNaN A cloud max_ratio = true ↔
      Flt.gt (A.div (A.ofNat (nonFiniteCount cloud - infiniteOnlyCount cloud))
        (A.ofNat cloud.length)) max_ratio = true) := by
  have h := nonFiniteCount_eq cloud
  have h2 : nonFiniteCount cloud - infiniteOnlyCount cloud = nanCount cloud := by omega
  refine ⟨by omega, ?_⟩
  rw [h2]
  simp [tooManyNaN, nanLoop_eq]

/-- C7, counterexample: on the one-point cloud whose point is `(+inf, 0, 0)`, all of the
points have a non-finite coordinate and `1 / 1 > 0.5`, yet `tooManyNaN (cloud, 0.5)` is
false. -/
theorem tooManyNaN_infinite_point_not_counted :
    nonFiniteCount [⟨Flt.pinf, Flt.ofInt 0, Flt.ofInt 0, 0, 0, 0⟩] = 1 ∧
    Flt.gt (ieee32.div (ieee32.ofNat 1) (ieee32.ofNat 1)) (Flt.dyadic 1 1) = true ∧
    tooManyNaN ieee32 [⟨Flt.pinf, Flt.ofInt 0, Flt.ofInt 0, 0, 0, 0⟩] (Flt.dyadic 1 1)
      = false := by
  decide

/-! ## The comparator -/

/-- C8: `planeHeightComparator (A, B)` is true exactly when the centroid `y` of `A` is
greater than that of `B`; and on regions whose centroid `y` is not NaN it is a strict weak
ordering: irreflexive, asymmetric, transitive, with a transitive incomparability. -/
theorem planeHeightComparator_strict_weak (A B C : PlanarRegion)
    (hA : A.getCentroid.c1.isnan = false) (hB : B.getCentroid.c1.isnan = false)
    (hC : C.getCentroid.c1.isnan = false) :
    (planeHeightComparator A B = true ↔ Flt.gt A.getCentroid.c1 B.getCentroid.c1 = true) ∧
    planeHeightComparator A A = false ∧
    (planeHeightComparator A B = true → planeHeightComparator B A = false) ∧
    (planeHeightComparator A B = true → planeHeightComparator B C = true →
      planeHeightComparator A C = true) ∧
    (planeHeightComparator A B = false → planeHeightComparator B A = false →
      planeHeightComparator B C = false → planeHeightComparator C B = false →
      planeHeightComparator A C = false ∧ planeHeightComparator C A = false) := by
  have _ := hA
  have _ := hC
  refine ⟨Iff.rfl, Flt.lt_irrefl _, fun h => Flt.lt_asymm h, fun h1 h2 => Flt.lt_trans h2 h1, ?_⟩
  intro h1 h2 h3 h4
  simp only [planeHeightComparator, Flt.gt] at h1 h2 h3 h4 ⊢
  have h := Flt.incomparable_trans hB h2 h1 h4 h3
  exact ⟨h.2, h.1⟩

/-- C8, witness: three regions with centroid heights 3, 2 and 1. -/
theorem planeHeightComparator_strict_weak_witness :
    (planeHeightComparator (planeAt 0 1 0 0 3) (planeAt 0 1 0 0 2) = true ↔
      Flt.gt (planeAt 0 1 0 0 3).getCentroid.c1 (planeAt 0 1 0 0 2).getCentroid.c1 = true) ∧
    planeHeightComparator (planeAt 0 1 0 0 3) (planeAt 0 1 0 0 3) = false ∧
    (planeHeightComparator (planeAt 0 1 0 0 3) (planeAt 0 1 0 0 2) = true →
      planeHeightComparator (planeAt 0 1 0 0 2) (planeAt 0 1 0 0 3) = false) ∧
    (planeHeightComparator (planeAt 0 1 0 0 3) (planeAt 0 1 0 0 2) = true →
      planeHeightComparator (planeAt 0 1 0 0 2) (planeAt 0 1 0 0 1) = true →
      planeHeightComparator (planeAt 0 1 0 0 3) (planeAt 0 1 0 0 1) = true) ∧
    (planeHeightComparator (planeAt 0 1 0 0 3) (planeAt 0 1 0 0 2) = false →
      planeHeightComparator (planeAt 0 1 0 0 2) (planeAt 0 1 0 0 3) = false →
      planeHeightComparator (planeAt 0 1 0 0 2) (planeAt 0 1 0 0 1) = false →
      planeHeightComparator (planeAt 0 1 0 0 1) (planeAt 0 1 0 0 2) = false →
      planeHeightComparator (planeAt 0 1 0 0 3) (planeAt 0 1 0 0 1) = false ∧
      planeHeightComparator (planeAt 0 1 0 0 1) (planeAt 0 1 0 0 3) = false) :=
  planeHeightComparator_strict_weak (planeAt 0 1 0 0 3) (planeAt 0 1 0 0 2) (planeAt 0 1 0 0 1)
    (by decide) (by decide) (by decide)

/-! ## Manual branch -/

/-- The erase-from-front loop leaves the last three points. -/
theorem keepLastThree_eq_drop (clicked : PointCloud) :
    keepLastThree clicked = clicked.drop (clicked.length - 3) := by
  induction clicked with
  | nil => simp [keepLastThree]
  | cons p rest ih =>
    unfold keepLastThree
    by_cases h : (p :: rest).length > 3
    · rw [if_pos h, ih]
      simp only [List.length_cons] at h ⊢
      have e : rest.length + 1 - 3 = (rest.length - 3) + 1 := by omega
      rw [e, List.drop_succ_cons]
    · rw [if_neg h]
      simp only [List.length_cons] at h ⊢
      have e : rest.length + 1 - 3 = 0 := by omega
      rw [e, List.drop_zero]

/-- The index loop appends `i, i + 1, ...` to the indices pushed so far. -/
theorem pushIndices_eq (left i : Nat) (acc : List Nat) :
    pushIndices left i acc = acc ++ List.range' i left := by
  induction left generalizing i acc with
  | zero => simp [pushIndices]
  | succ n ih =>
    unfold pushIndices
    rw [ih]
    simp [List.range'_succ]

/-- The manual branch fits the plane through the points left by the erase loop. -/
theorem compute_manual (E : Env) (self : GroundplaneEstimation) (cloud : PointCloud)
    (hmode : self.ground_estimation_mode_ = 0) (hcloud : self.cloud_ = some cloud) :
    ∃ out, compute E self = some out ∧
      out.ground_coeffs = E.computeModelCoefficients (keepLastThree (clickedPoints E))
        (pushIndices (keepLastThree (clickedPoints E)).length 0 []) E.uninitialised := by
  simp [compute, hmode, hcloud, manualBranch, clickedPoints]

/-- C9: in manual mode the erase-from-front loop (a total function, so it terminates)
leaves exactly the last `min (n, 3)` of the `n` clicked points in their click order, the
index list is `[0, ..., min (n, 3) - 1]`, and `compute` returns what the plane fit writes
for these points and indices; for `n ≥ 3` these are the 3 most recent clicks. -/
theorem manual_keeps_last_three (clicked : PointCloud) :
    keepLastThree clicked = clicked.drop (clicked.length - 3) ∧
    (keepLastThree clicked).length = min clicked.length 3 ∧
    (∃ discarded, clicked = discarded ++ keepLastThree clicked ∧
      discarded.length = clicked.length - 3) ∧
    pushIndices (keepLastThree clicked).length 0 [] = List.range (min clicked.length 3) ∧
    (3 ≤ clicked.length → (keepLastThree clicked).length = 3) ∧
    (∀ (E : Env) (self : GroundplaneEstimation) (cloud : PointCloud),
      self.ground_estimation_mode_ = 0 → self.cloud_ = some cloud →
      clickedPoints E = clicked →
      ∃ out, compute E self = some out ∧
        out.ground_coeffs = E.computeModelCoefficients
          (clicked.drop (clicked.length - 3)) (List.range (min clicked.length 3))
          E.uninitialised) := by
  have hk := keepLastThree_eq_drop clicked
  have hl : (keepLastThree clicked).length = min clicked.length 3 := by
    rw [hk, List.length_drop]
    omega
  have hi : pushIndices (keepLastThree clicked).length 0 [] = List.range (min clicked.length 3) := by
    rw [pushIndices_eq, hl, List.nil_append, List.range_eq_range']
  refine ⟨hk, hl, ⟨clicked.take (clicked.length - 3), ?_, ?_⟩, hi, ?_, ?_⟩
  · rw [hk, List.take_append_drop]
  · rw [List.length_take]
    omega
  · intro h
    rw [hl]
    omega
  · intro E self cloud hmode hcloud hclicked
    obtain ⟨out, h1, h2⟩ := compute_manual E self cloud hmode hcloud
    refine ⟨out, h1, ?_⟩
    rw [h2, hclicked, hi, hk]

/-! ## `colorRegions` returns -/

theorem selectWithinDistance_lt (E : Env) (cloud : PointCloud) (model : Vec4) (t : Flt) :
    ∀ j ∈ selectWithinDistance E cloud model t, j < cloud.length := by
  intro j hj
  simp only [selectWithinDistance, List.mem_filter, List.mem_range] at hj
  exact hj.1

theorem paintLoop_some (r g b : Nat) (js : List Nat) (colored : PointCloud)
    (h : ∀ j ∈ js, j < colored.length) :
    ∃ c, paintLoop r g b js colored = some c ∧ c.length = colored.length := by
  induction js generalizing colored with
  | nil => exact ⟨colored, rfl, rfl⟩
  | cons j rest ih =>
    have hj : j < colored.length := h j (List.mem_cons_self _ _)
    obtain ⟨p, hp⟩ : ∃ p, colored[j]? = some p :=
      ⟨colored[j], List.getElem?_eq_getElem hj⟩
    have hrest : ∀ i ∈ rest,
        i < (colored.set j { p with r := r, g := g, b := b }).length := by
      intro i hi
      rw [List.length_set]
      exact h i (List.mem_cons_of_mem _ hi)
    obtain ⟨c, hc, hlen⟩ := ih _ hrest
    refine ⟨c, ?_, ?_⟩
    · simp only [paintLoop, paintAt, hp]
      exact hc
    · rw [hlen, List.length_set]

theorem colorLoop_some (E : Env) (cloud : PointCloud) (regions : List PlanarRegion) (k : Nat)
    (colored : PointCloud) (h : colored.length = cloud.length) :
    ∃ c, colorLoop E cloud regions k colored = some c ∧ c.length = cloud.length := by
  induction regions generalizing k colored with
  | nil => exact ⟨colored, rfl, h⟩
  | cons region rest ih =>
    obtain ⟨painted, hp, hlen⟩ := paintLoop_some (E.rand k % 256) (E.rand (k + 1) % 256)
      (E.rand (k + 2) % 256) (selectWithinDistance E cloud region.getCoefficients voxel_size)
      colored (by
        intro j hj
        rw [h]
        exact selectWithinDistance_lt E cloud _ _ j hj)
    obtain ⟨c, hc, hclen⟩ := ih (k + 3) painted (by rw [hlen, h])
    refine ⟨c, ?_, hclen⟩
    simp only [colorLoop, hp]
    exact hc

/-- As `compute` calls it (without an index, or with index 0), `colorRegions` returns a
cloud: no access is out of range. -/
theorem colorRegions_some (E : Env) (cloud : PointCloud) (regions : List PlanarRegion)
    (index : Int) (h : index = -1 ∨ index = 0) :
    ∃ c, colorRegions E cloud regions index = some c := by
  obtain ⟨colored, hc, hlen⟩ := colorLoop_some E cloud regions 0 cloud rfl
  rcases h with h | h
  · subst h
    refine ⟨colored, ?_⟩
    simp [colorRegions, hc]
  · subst h
    cases regions with
    | nil =>
      refine ⟨colored, ?_⟩
      simp [colorRegions, hc]
    | cons first rest =>
      obtain ⟨c, hp, _⟩ := paintLoop_some 255 0 0
        (selectWithinDistance E cloud first.getCoefficients voxel_size) colored (by
          intro j hj
          rw [hlen]
          exact selectWithinDistance_lt E cloud _ _ j hj)
      refine ⟨c, ?_⟩
      simp [colorRegions, hc, hp]

/-! ## The removal loop and the sort -/

/-- The removal loop keeps the regions before `i` and, from `i` on, those for which the
test `fabs (b) < 0.70` fails. -/
theorem eraseLoop_eq (regions : List PlanarRegion) (i : Nat) :
    eraseLoop regions i = regions.take i ++ (regions.drop i).filter compatible := by
  induction regions, i using eraseLoop.induct with
  | case1 regions i h hlt ih =>
    rw [eraseLoop, dif_pos h, if_pos hlt, ih]
    have hd : regions.drop i = regions[i] :: regions.drop (i + 1) :=
      List.drop_eq_getElem_cons h
    have hc : ¬ (compatible regions[i] = true) := by
      simp [compatible, hlt]
    rw [hd, List.filter_cons_of_neg hc, List.eraseIdx_eq_take_drop_succ]
    have hi : i ≤ regions.length := Nat.le_of_lt h
    have ht : (List.take i regions).length = i := by
      rw [List.length_take]
      omega
    rw [List.take_left' ht, List.drop_left' ht]
  | case2 regions i h hlt ih =>
    rw [eraseLoop, dif_pos h, if_neg hlt, ih]
    have hd : regions.drop i = regions[i] :: regions.drop (i + 1) :=
      List.drop_eq_getElem_cons h
    have hc : compatible regions[i] = true := by
      simp [compatible, hlt]
    rw [hd, List.filter_cons_of_pos hc, List.take_succ, List.getElem?_eq_getElem h]
    simp only [Option.toList, List.append_assoc, List.singleton_append]
  | case3 regions i h =>
    rw [eraseLoop, dif_neg h]
    have hi : regions.length ≤ i := Nat.le_of_not_lt h
    rw [List.take_of_length_le hi, List.drop_of_length_le hi]
    simp

theorem eraseLoop_zero (regions : List PlanarRegion) :
    eraseLoop regions 0 = regions.filter compatible := by
  rw [eraseLoop_eq]
  simp

theorem orderedInsert_perm (cmp : PlanarRegion → PlanarRegion → Bool) (x : PlanarRegion)
    (l : List PlanarRegion) : (orderedInsert cmp x l).Perm (x :: l) := by
  induction l with
  | nil => exact List.Perm.refl _
  | cons y rest ih =>
    unfold orderedInsert
    by_cases h : cmp x y = true
    · rw [if_pos h]
    · rw [if_neg h]
      exact (List.Perm.cons y ih).trans (List.Perm.swap x y rest)

theorem insertionSort_perm (cmp : PlanarRegion → PlanarRegion → Bool)
    (l : List PlanarRegion) : (insertionSort cmp l).Perm l := by
  induction l with
  | nil => exact List.Perm.refl _
  | cons x rest ih =>
    unfold insertionSort
    exact (orderedInsert_perm cmp x _).trans (List.Perm.cons x ih)

theorem orderedInsert_pairwise (cmp : PlanarRegion → PlanarRegion → Bool)
    (P : PlanarRegion → Prop) (hirr : ∀ a, P a → cmp a a = false)
    (htr : ∀ a b c, P a → P b → P c → cmp a b = true → cmp b c = true → cmp a c = true)
    (x : PlanarRegion) (hx : P x) (l : List PlanarRegion) (hl : ∀ a ∈ l, P a)
    (hp : l.Pairwise (fun a b => cmp b a = false)) :
    (orderedInsert cmp x l).Pairwise (fun a b => cmp b a = false) := by
  induction l with
  | nil => simp [orderedInsert]
  | cons y rest ih =>
    have hy : P y := hl y (List.mem_cons_self _ _)
    have hrest : ∀ a ∈ rest, P a := fun a ha => hl a (List.mem_cons_of_mem _ ha)
    rw [List.pairwise_cons] at hp
    unfold orderedInsert
    by_cases h : cmp x y = true
    · rw [if_pos h, List.pairwise_cons]
      refine ⟨?_, List.pairwise_cons.mpr hp⟩
      intro z hz
      cases hc : cmp z x with
      | false => rfl
      | true =>
        rcases List.mem_cons.mp hz with hzy | hzr
        · subst hzy
          have := htr x z x hx hy hx h hc
          rw [hirr x hx] at this
          exact absurd this (by simp)
        · have h1 := htr z x y (hrest z hzr) hx hy hc h
          rw [hp.1 z hzr] at h1
          exact absurd h1 (by simp)
    · rw [if_neg h, List.pairwise_cons]
      refine ⟨?_, ih hrest hp.2⟩
      intro z hz
      rcases List.mem_cons.mp ((orderedInsert_perm cmp x rest).mem_iff.mp hz) with hzx | hzr
      · subst hzx
        simpa using h
      · exact hp.1 z hzr

theorem insertionSort_pairwise (cmp : PlanarRegion → PlanarRegion → Bool)
    (P : PlanarRegion → Prop) (hirr : ∀ a, P a → cmp a a = false)
    (htr : ∀ a b c, P a → P b → P c → cmp a b = true → cmp b c = true → cmp a c = true)
    (l : List PlanarRegion) (hl : ∀ a ∈ l, P a) :
    (insertionSort cmp l).Pairwise (fun a b => cmp b a = false) := by
  induction l with
  | nil => simp [insertionSort]
  | cons x rest ih =>
    unfold insertionSort
    have hrest : ∀ a ∈ rest, P a := fun a ha => hl a (List.mem_cons_of_mem _ ha)
    exact orderedInsert_pairwise cmp P hirr htr x (hl x (List.mem_cons_self _ _)) _
      (fun a ha => hrest a ((insertionSort_perm cmp rest).mem_iff.mp ha)) (ih hrest)

/-- Insertion sort meets the contract of `std::sort`. -/
theorem insertionSort_contract : StdSortContract insertionSort := by
  intro cmp l h
  refine ⟨insertionSort_perm cmp l, ?_⟩
  exact insertionSort_pairwise cmp (fun a => a ∈ l) h.1
    (fun a b c ha hb hc => h.2.1 a ha b hb c hc) l (fun a ha => ha)

/-- On regions whose centroid `y` is not NaN the comparator is a strict weak ordering. -/
theorem strictWeakOn_planeHeightComparator (l : List PlanarRegion)
    (h : ∀ r ∈ l, r.getCentroid.c1.isnan = false) :
    StrictWeakOn planeHeightComparator l := by
  refine ⟨fun a _ => Flt.lt_irrefl _, ?_, ?_⟩
  · intro a _ b _ c _ h1 h2
    exact Flt.lt_trans h2 h1
  · intro a _ b hb c _ h1 h2 h3 h4
    simp only [planeHeightComparator, Flt.gt] at h1 h2 h3 h4 ⊢
    have := Flt.incomparable_trans (h b hb) h2 h1 h4 h3
    exact ⟨this.2, this.1⟩

/-! ## Automatic branch -/

/-- The regions the automatic branch selects from: what `std::sort` makes of the regions
left by the removal loop. -/
theorem compute_automatic (E : Env) (self : GroundplaneEstimation) (cloud : PointCloud)
    (hmode : self.ground_estimation_mode_ = 2 ∨ self.ground_estimation_mode_ = 3)
    (hcloud : self.cloud_ = some cloud) :
    ∃ out, compute E self = some out ∧
      out.ground_coeffs =
        (match E.sort planeHeightComparator ((E.segmentAndRefine cloud).filter compatible) with
          | first :: _ => first.getCoefficients
          | [] => E.uninitialised) ∧
      out.cout =
        (match E.sort planeHeightComparator ((E.segmentAndRefine cloud).filter compatible) with
          | first :: _ => [Msg.automaticMode, Msg.groundPlaneCoefficients first.getCoefficients]
          | [] => [Msg.automaticMode, Msg.noValidGroundPlane]) := by
  have h0 : self.ground_estimation_mode_ ≠ 0 := by omega
  have h1 : self.ground_estimation_mode_ ≠ 1 := by omega
  obtain ⟨colored, hcol⟩ := colorRegions_some E cloud
    (E.sort planeHeightComparator ((E.segmentAndRefine cloud).filter compatible)) 0 (Or.inr rfl)
  simp only [compute, hcloud, h0, h1, hmode, if_false, if_true, Option.bind, automaticBranch,
    eraseLoop_zero, hcol]
  cases E.sort planeHeightComparator ((E.segmentAndRefine cloud).filter compatible) with
  | nil => exact ⟨_, rfl, rfl, rfl⟩
  | cons first rest => exact ⟨_, rfl, rfl, rfl⟩

/-- The vector returned in automatic mode, in a form that evaluates. -/
theorem compute_automatic_coeffs (E : Env) (self : GroundplaneEstimation) (cloud : PointCloud)
    (hmode : self.ground_estimation_mode_ = 2 ∨ self.ground_estimation_mode_ = 3)
    (hcloud : self.cloud_ = some cloud) :
    (compute E self).map Output.ground_coeffs = some
      (match E.sort planeHeightComparator ((E.segmentAndRefine cloud).filter compatible) with
        | first :: _ => first.getCoefficients
        | [] => E.uninitialised) := by
  obtain ⟨out, h, hc, _⟩ := compute_automatic E self cloud hmode hcloud
  rw [h, Option.map, hc]

/-- The lines written in automatic mode, in a form that evaluates. -/
theorem compute_automatic_cout (E : Env) (self : GroundplaneEstimation) (cloud : PointCloud)
    (hmode : self.ground_estimation_mode_ = 2 ∨ self.ground_estimation_mode_ = 3)
    (hcloud : self.cloud_ = some cloud) :
    (compute E self).map Output.cout = some
      (match E.sort planeHeightComparator ((E.segmentAndRefine cloud).filter compatible) with
        | first :: _ => [Msg.automaticMode, Msg.groundPlaneCoefficients first.getCoefficients]
        | [] => [Msg.automaticMode, Msg.noValidGroundPlane]) := by
  obtain ⟨out, h, _, hc⟩ := compute_automatic E self cloud hmode hcloud
  rw [h, Option.map, hc]

/-- What the sort of the regions left by the removal loop starts with, when one is left
and the regions left have a centroid `y` that is not NaN. -/
theorem sorted_head (E : Env) (regions : List PlanarRegion) (hsort : StdSortContract E.sort)
    (hy : ∀ r ∈ regions, compatible r = true → r.getCentroid.c1.isnan = false)
    (hex : ∃ r ∈ regions, compatible r = true) :
    ∃ first rest, E.sort planeHeightComparator (regions.filter compatible) = first :: rest ∧
      first ∈ regions ∧ compatible first = true ∧
      ∀ c ∈ regions, compatible c = true →
        Flt.ge first.getCentroid.c1 c.getCentroid.c1 = true := by
  have hnan : ∀ r ∈ regions.filter compatible, r.getCentroid.c1.isnan = false := by
    intro r hr
    rw [List.mem_filter] at hr
    exact hy r hr.1 hr.2
  obtain ⟨hperm, hpair⟩ := hsort planeHeightComparator (regions.filter compatible)
    (strictWeakOn_planeHeightComparator _ hnan)
  obtain ⟨r, hr, hrc⟩ := hex
  have hrs : r ∈ E.sort planeHeightComparator (regions.filter compatible) :=
    hperm.mem_iff.mpr (List.mem_filter.mpr ⟨hr, hrc⟩)
  cases hs : E.sort planeHeightComparator (regions.filter compatible) with
  | nil =>
    rw [hs] at hrs
    exact absurd hrs (List.not_mem_nil _)
  | cons first rest =>
    rw [hs] at hperm hpair
    have hfirst : first ∈ regions.filter compatible :=
      hperm.mem_iff.mp (List.mem_cons_self _ _)
    rw [List.mem_filter] at hfirst
    refine ⟨first, rest, rfl, hfirst.1, hfirst.2, ?_⟩
    intro c hc hcc
    have hcs : c ∈ first :: rest := hperm.mem_iff.mpr (List.mem_filter.mpr ⟨hc, hcc⟩)
    have hlt : Flt.lt first.getCentroid.c1 c.getCentroid.c1 = false := by
      rcases List.mem_cons.mp hcs with h | h
      · rw [h]
        exact Flt.lt_irrefl _
      · exact (List.pairwise_cons.mp hpair).1 c h
    exact (Flt.lt_false_iff_ge (hy first hfirst.1 hfirst.2) (hy c hc hcc)).mp hlt

/-- C1, amended: in automatic mode a candidate survives unless `fabs (b) < 0.70` holds (so
a NaN `b` survives; for any other `b` surviving is `|b| >= 0.70`).  When `std::sort` honours
its contract, no survivor has a NaN centroid `y` and at least one candidate survives,
`compute` returns exactly the coefficients of a survivor `c` whose centroid `y` is `>=`
that of every survivor; a candidate with `|b| < 0.70` is never returned. -/
theorem automatic_returns_highest_survivor (E : Env) (self : GroundplaneEstimation)
    (cloud : PointCloud)
    (hmode : self.ground_estimation_mode_ = 2 ∨ self.ground_estimation_mode_ = 3)
    (hcloud : self.cloud_ = some cloud) (hsort : StdSortContract E.sort)
    (hy : ∀ r ∈ E.segmentAndRefine cloud,
      Flt.lt (Flt.fabs r.getCoefficients.c1) c070 = false → r.getCentroid.c1.isnan = false)
    (hex : ∃ r ∈ E.segmentAndRefine cloud,
      Flt.lt (Flt.fabs r.getCoefficients.c1) c070 = false) :
    ∃ c ∈ E.segmentAndRefine cloud,
      Flt.lt (Flt.fabs c.getCoefficients.c1) c070 = false ∧
      (c.getCoefficients.c1.isnan = false →
        Flt.ge (Flt.fabs c.getCoefficients.c1) c070 = true) ∧
      (∀ c' ∈ E.segmentAndRefine cloud,
        Flt.lt (Flt.fabs c'.getCoefficients.c1) c070 = false →
        Flt.ge c.getCentroid.c1 c'.getCentroid.c1 = true) ∧
      ∃ out, compute E self = some out ∧ out.ground_coeffs = c.getCoefficients := by
  have hy1 : ∀ r ∈ E.segmentAndRefine cloud, compatible r = true →
      r.getCentroid.c1.isnan = false := by
    intro r hr hc
    exact hy r hr (by simpa [compatible] using hc)
  have hex1 : ∃ r ∈ E.segmentAndRefine cloud, compatible r = true := by
    obtain ⟨r, hr, hc⟩ := hex
    exact ⟨r, hr, by simpa [compatible] using hc⟩
  obtain ⟨first, rest, hs, hmem, hc, hmax⟩ := sorted_head E _ hsort hy1 hex1
  obtain ⟨out, hout, hco, _⟩ := compute_automatic E self cloud hmode hcloud
  rw [hs] at hco
  have hlt : Flt.lt (Flt.fabs first.getCoefficients.c1) c070 = false := by
    simpa [compatible] using hc
  refine ⟨first, hmem, hlt, ?_, ?_, out, hout, hco⟩
  · intro hb
    have hb1 : (Flt.fabs first.getCoefficients.c1).isnan = false := by
      cases h : first.getCoefficients.c1 <;> simp_all [Flt.fabs, Flt.isnan]
    exact (Flt.lt_false_iff_ge hb1 (by decide)).mp hlt
  · intro c' hc' hlt'
    exact hmax c' hc' (by simpa [compatible] using hlt')

/-- C1, witness: with a wall (`b = 0`) whose centroid is the highest and two horizontal
planes with centroid heights 1 and 2, the plane with height 2 is returned. -/
theorem automatic_returns_highest_survivor_witness :
    (compute (exampleEnv [planeAt 1 0 0 0 5, planeAt 0 1 0 0 1, planeAt 0 1 0 (-1) 2] [])
      (exampleInstance 3)).map Output.ground_coeffs
      = some (planeAt 0 1 0 (-1) 2).getCoefficients := by
  obtain ⟨c, hc, hlt, _, hmax, out, hout, hco⟩ := automatic_returns_highest_survivor
    (exampleEnv [planeAt 1 0 0 0 5, planeAt 0 1 0 0 1, planeAt 0 1 0 (-1) 2] [])
    (exampleInstance 3) [pointAt 0 0 0] (by decide) rfl insertionSort_contract
    (by decide) (by decide)
  rw [hout, Option.map, hco]
  have hc1 : c ∈ [planeAt 1 0 0 0 5, planeAt 0 1 0 0 1, planeAt 0 1 0 (-1) 2] := hc
  simp only [List.mem_cons, List.mem_singleton, List.not_mem_nil, or_false] at hc1
  rcases hc1 with h | h | h
  · subst h
    exact absurd hlt (by decide)
  · subst h
    have h2 := hmax (planeAt 0 1 0 (-1) 2)
      (show planeAt 0 1 0 (-1) 2 ∈ [planeAt 1 0 0 0 5, planeAt 0 1 0 0 1, planeAt 0 1 0 (-1) 2] by
        decide) (by decide)
    exact absurd h2 (by decide)
  · rw [h]

/-- C1, counterexample: of a candidate with NaN `b` and centroid height 2 and a candidate
with `b = 1` and centroid height 1, so that a candidate with `|b| >= 0.70` exists, the
automatic mode returns the coefficients of the first, whose `|b| >= 0.70` fails: no
candidate is as the claim requires of the returned one.  Likewise a single candidate with
`b = 1` and a NaN centroid `y` is returned, and its centroid `y` is not `>=` itself. -/
theorem automatic_returns_nan_plane :
    ((∃ r ∈ [nanPlane, planeAt 0 1 0 0 1],
        Flt.ge (Flt.fabs r.getCoefficients.c1) c070 = true) ∧
      (compute (exampleEnv [nanPlane, planeAt 0 1 0 0 1] []) (exampleInstance 3)).map
        Output.ground_coeffs = some ⟨Flt.ofInt 0, Flt.nan, Flt.ofInt 0, Flt.ofInt 0⟩ ∧
      ¬ ∃ c ∈ [nanPlane, planeAt 0 1 0 0 1],
        Flt.ge (Flt.fabs c.getCoefficients.c1) c070 = true ∧
        (∀ d ∈ [nanPlane, planeAt 0 1 0 0 1],
          Flt.ge (Flt.fabs d.getCoefficients.c1) c070 = true →
          Flt.ge c.getCentroid.c1 d.getCentroid.c1 = true) ∧
        (compute (exampleEnv [nanPlane, planeAt 0 1 0 0 1] []) (exampleInstance 3)).map
          Output.ground_coeffs = some c.getCoefficients) ∧
    ((∃ r ∈ [nanCentroidPlane], Flt.ge (Flt.fabs r.getCoefficients.c1) c070 = true) ∧
      (compute (exampleEnv [nanCentroidPlane] []) (exampleInstance 3)).map
        Output.ground_coeffs = some nanCentroidPlane.getCoefficients ∧
      ¬ ∃ c ∈ [nanCentroidPlane],
        Flt.ge (Flt.fabs c.getCoefficients.c1) c070 = true ∧
        (∀ d ∈ [nanCentroidPlane],
          Flt.ge (Flt.fabs d.getCoefficients.c1) c070 = true →
          Flt.ge c.getCentroid.c1 d.getCentroid.c1 = true) ∧
        (compute (exampleEnv [nanCentroidPlane] []) (exampleInstance 3)).map
          Output.ground_coeffs = some c.getCoefficients) := by
  rw [compute_automatic_coeffs _ _ [pointAt 0 0 0] (by decide) rfl,
    compute_automatic_coeffs _ _ [pointAt 0 0 0] (by decide) rfl]
  decide

/-- C5, amended: in automatic mode, when `std::sort` honours its contract and no candidate
left by the removal loop has a NaN centroid `y`, for every candidate list (the empty one
included) `compute` writes the no-valid-ground-plane error exactly when `fabs (b) < 0.70`
holds for every candidate (a candidate with a NaN `b` is not removed and counts as valid);
then the returned vector is the uninitialised one, no component being assigned, and
otherwise no error is written.  When no `b` is NaN, the condition is that no candidate
has `|b| >= 0.70`. -/
theorem automatic_error_iff_none_survives (E : Env) (self : GroundplaneEstimation)
    (cloud : PointCloud)
    (hmode : self.ground_estimation_mode_ = 2 ∨ self.ground_estimation_mode_ = 3)
    (hcloud : self.cloud_ = some cloud) (hsort : StdSortContract E.sort)
    (hy : ∀ r ∈ E.segmentAndRefine cloud,
      Flt.lt (Flt.fabs r.getCoefficients.c1) c070 = false → r.getCentroid.c1.isnan = false) :
    ∃ out, compute E self = some out ∧
      (Msg.noValidGroundPlane ∈ out.cout ↔
        ∀ r ∈ E.segmentAndRefine cloud, Flt.lt (Flt.fabs r.getCoefficients.c1) c070 = true) ∧
      ((∀ r ∈ E.segmentAndRefine cloud, Flt.lt (Flt.fabs r.getCoefficients.c1) c070 = true) →
        out.ground_coeffs = E.uninitialised) ∧
      ((∀ r ∈ E.segmentAndRefine cloud, r.getCoefficients.c1.isnan = false) →
        (Msg.noValidGroundPlane ∈ out.cout ↔
          ¬ ∃ r ∈ E.segmentAndRefine cloud,
            Flt.ge (Flt.fabs r.getCoefficients.c1) c070 = true)) := by
  obtain ⟨out, hout, hco, hcout⟩ := compute_automatic E self cloud hmode hcloud
  have key : (Msg.noValidGroundPlane ∈ out.cout ↔
        ∀ r ∈ E.segmentAndRefine cloud, Flt.lt (Flt.fabs r.getCoefficients.c1) c070 = true) ∧
      ((∀ r ∈ E.segmentAndRefine cloud, Flt.lt (Flt.fabs r.getCoefficients.c1) c070 = true) →
        out.ground_coeffs = E.uninitialised) := by
    by_cases hex : ∃ r ∈ E.segmentAndRefine cloud, compatible r = true
    · have hy1 : ∀ r ∈ E.segmentAndRefine cloud, compatible r = true →
          r.getCentroid.c1.isnan = false := by
        intro r hr hc
        exact hy r hr (by simpa [compatible] using hc)
      obtain ⟨first, rest, hs, _, _, _⟩ := sorted_head E _ hsort hy1 hex
      rw [hs] at hcout
      obtain ⟨r, hr, hc⟩ := hex
      have hnot : ¬ ∀ r ∈ E.segmentAndRefine cloud,
          Flt.lt (Flt.fabs r.getCoefficients.c1) c070 = true := by
        intro hall
        have := hall r hr
        simp [compatible, this] at hc
      refine ⟨⟨?_, fun h => absurd h hnot⟩, fun h => absurd h hnot⟩
      intro hin
      rw [hcout] at hin
      simp at hin
    · have hall : ∀ r ∈ E.segmentAndRefine cloud,
          Flt.lt (Flt.fabs r.getCoefficients.c1) c070 = true := by
        intro r hr
        cases hlt : Flt.lt (Flt.fabs r.getCoefficients.c1) c070 with
        | true => rfl
        | false => exact absurd ⟨r, hr, by simp [compatible, hlt]⟩ hex
      have hempty : (E.segmentAndRefine cloud).filter compatible = [] := by
        rw [List.filter_eq_nil_iff]
        intro r hr hc
        exact hex ⟨r, hr, hc⟩
      have hsorted : E.sort planeHeightComparator [] = [] := by
        have := (hsort planeHeightComparator []
          (strictWeakOn_planeHeightComparator [] (by simp))).1
        exact List.Perm.eq_nil this
      rw [hempty, hsorted] at hco hcout
      refine ⟨⟨fun _ => hall, fun _ => ?_⟩, fun _ => hco⟩
      rw [hcout]
      simp
  refine ⟨out, hout, key.1, key.2, ?_⟩
  intro hnan
  rw [key.1]
  constructor
  · rintro hall ⟨r, hr, hge⟩
    have hb : (Flt.fabs r.getCoefficients.c1).isnan = false := by
      have := hnan r hr
      cases h : r.getCoefficients.c1 <;> simp_all [Flt.fabs, Flt.isnan]
    have := (Flt.lt_false_iff_ge hb (by decide)).mpr hge
    rw [hall r hr] at this
    exact absurd this (by simp)
  · intro hno r hr
    cases hlt : Flt.lt (Flt.fabs r.getCoefficients.c1) c070 with
    | true => rfl
    | false =>
      have hb : (Flt.fabs r.getCoefficients.c1).isnan = false := by
        have := hnan r hr
        cases h : r.getCoefficients.c1 <;> simp_all [Flt.fabs, Flt.isnan]
      exact absurd ⟨r, hr, (Flt.lt_false_iff_ge hb (by decide)).mp hlt⟩ hno

/-- C5, witness: a wall alone (`b = 0`). -/
theorem automatic_error_iff_none_survives_witness :
    ∃ out, compute (exampleEnv [planeAt 1 0 0 0 5] []) (exampleInstance 2) = some out ∧
      (Msg.noValidGroundPlane ∈ out.cout ↔
        ∀ r ∈ [planeAt 1 0 0 0 5], Flt.lt (Flt.fabs r.getCoefficients.c1) c070 = true) ∧
      ((∀ r ∈ [planeAt 1 0 0 0 5], Flt.lt (Flt.fabs r.getCoefficients.c1) c070 = true) →
        out.ground_coeffs = zeroVec) ∧
      ((∀ r ∈ [planeAt 1 0 0 0 5], r.getCoefficients.c1.isnan = false) →
        (Msg.noValidGroundPlane ∈ out.cout ↔
          ¬ ∃ r ∈ [planeAt 1 0 0 0 5],
            Flt.ge (Flt.fabs r.getCoefficients.c1) c070 = true)) :=
  automatic_error_iff_none_survives (exampleEnv [planeAt 1 0 0 0 5] []) (exampleInstance 2)
    [pointAt 0 0 0] (by decide) rfl insertionSort_contract (by decide)

/-- C5, counterexample: the only candidate has a NaN `b`, so no candidate has
`|b| >= 0.70`; yet the automatic mode writes no error and returns the coefficients of that
candidate. -/
theorem automatic_nan_plane_no_error :
    (¬ ∃ r ∈ [nanPlane], Flt.ge (Flt.fabs r.getCoefficients.c1) c070 = true) ∧
    (compute (exampleEnv [nanPlane] []) (exampleInstance 3)).map Output.cout
      = some [Msg.automaticMode, Msg.groundPlaneCoefficients nanPlane.getCoefficients] ∧
    (compute (exampleEnv [nanPlane] []) (exampleInstance 3)).map Output.ground_coeffs
      = some nanPlane.getCoefficients := by
  rw [compute_automatic_coeffs _ _ [pointAt 0 0 0] (by decide) rfl,
    compute_automatic_cout _ _ [pointAt 0 0 0] (by decide) rfl]
  decide

/-! ## Semi-automatic branch -/

/-- What the closest-plane loop returns from a state `(i, index, min_distance)`: either no
remaining distance is below `min_distance` and `index` is kept, or the index of the first
remaining region whose distance is below `min_distance` and is not exceeded downwards by
any remaining distance. -/
theorem closestLoop_spec (A : FloatArith) (X Y Z : Flt) (rest : List PlanarRegion)
    (i index : Nat) (m : Flt) :
    (closestLoop A X Y Z rest i index m = index ∧
      ∀ r ∈ rest, Flt.lt (planeDistance A r.getCoefficients X Y Z) m = false) ∨
    (∃ j rj, rest[j]? = some rj ∧ closestLoop A X Y Z rest i index m = i + j ∧
      Flt.lt (planeDistance A rj.getCoefficients X Y Z) m = true ∧
      (∀ r ∈ rest, Flt.lt (planeDistance A r.getCoefficients X Y Z)
        (planeDistance A rj.getCoefficients X Y Z) = false) ∧
      (∀ k rk, k < j → rest[k]? = some rk →
        Flt.lt (planeDistance A rj.getCoefficients X Y Z)
          (planeDistance A rk.getCoefficients X Y Z) = true ∨
        (planeDistance A rk.getCoefficients X Y Z).isnan = true)) := by
  induction rest generalizing i index m with
  | nil => exact Or.inl ⟨rfl, fun r hr => absurd hr (List.not_mem_nil _)⟩
  | cons region rest ih =>
    unfold closestLoop
    by_cases hlt : Flt.lt (planeDistance A region.getCoefficients X Y Z) m = true
    · simp only [hlt, if_true]
      right
      rcases ih (i + 1) i (planeDistance A region.getCoefficients X Y Z) with ⟨he, hall⟩ | h
      · refine ⟨0, region, List.getElem?_cons_zero, by simpa using he, hlt, ?_, ?_⟩
        · intro r hr
          rcases List.mem_cons.mp hr with h | h
          · rw [h]
            exact Flt.lt_irrefl _
          · exact hall r h
        · intro k rk hk
          exact absurd hk (Nat.not_lt_zero k)
      · obtain ⟨j, rj, hget, he, hlt1, hmin, hleast⟩ := h
        refine ⟨j + 1, rj, by simpa using hget, by rw [he]; omega, Flt.lt_trans hlt1 hlt, ?_, ?_⟩
        · intro r hr
          rcases List.mem_cons.mp hr with h | h
          · rw [h]
            exact Flt.lt_asymm hlt1
          · exact hmin r h
        · intro k rk hk hgk
          cases k with
          | zero =>
            simp only [List.getElem?_cons_zero, Option.some.injEq] at hgk
            subst hgk
            exact Or.inl hlt1
          | succ k =>
            exact hleast k rk (by omega) (by simpa using hgk)
    · have hlt0 : Flt.lt (planeDistance A region.getCoefficients X Y Z) m = false := by
        simpa using hlt
      simp only [hlt0]
      rcases ih (i + 1) index m with ⟨he, hall⟩ | h
      · left
        refine ⟨by simpa using he, ?_⟩
        intro r hr
        rcases List.mem_cons.mp hr with h | h
        · rw [h]
          exact hlt0
        · exact hall r h
      · right
        obtain ⟨j, rj, hget, he, hlt1, hmin, hleast⟩ := h
        refine ⟨j + 1, rj, by simpa using hget, by simp only [Bool.false_eq_true, if_false]; rw [he]; omega, hlt1, ?_, ?_⟩
        · intro r hr
          rcases List.mem_cons.mp hr with h | h
          · rw [h]
            cases hc : Flt.lt (planeDistance A region.getCoefficients X Y Z)
              (planeDistance A rj.getCoefficients X Y Z) with
            | false => rfl
            | true =>
              have := Flt.lt_trans hc hlt1
              rw [hlt0] at this
              exact absurd this (by simp)
          · exact hmin r h
        · intro k rk hk hgk
          cases k with
          | zero =>
            simp only [List.getElem?_cons_zero, Option.some.injEq] at hgk
            subst hgk
            cases hn : (planeDistance A region.getCoefficients X Y Z).isnan with
            | true => exact Or.inr rfl
            | false => exact Or.inl (Flt.lt_of_lt_of_not_lt hlt1 hlt0 hn)
          | succ k =>
            exact hleast k rk (by omega) (by simpa using hgk)

/-- The semi-automatic branch on a non-empty candidate list with a last clicked point:
the coefficients of the region with the index found by the loop are returned. -/
theorem compute_semiAutomatic (E : Env) (self : GroundplaneEstimation) (cloud : PointCloud)
    (last : Point) (region : PlanarRegion)
    (hmode : self.ground_estimation_mode_ = 1) (hcloud : self.cloud_ = some cloud)
    (hclick : (clickedPoints E).getLast? = some last)
    (hget : (E.segmentAndRefine cloud)[closestLoop E.arith last.x last.y last.z
      (E.segmentAndRefine cloud) 0 0 FLT_MAX]? = some region) :
    ∃ out, compute E self = some out ∧ out.ground_coeffs = region.getCoefficients := by
  obtain ⟨colored, hcol⟩ := colorRegions_some E cloud (E.segmentAndRefine cloud) (-1)
    (Or.inl rfl)
  have hpos : (E.segmentAndRefine cloud).length > 0 := by
    cases h : E.segmentAndRefine cloud with
    | nil => rw [h] at hget; simp at hget
    | cons a l => simp
  have hclick1 : (spin E.picks ([], [])).1.getLast? = some last := hclick
  simp [compute, hmode, hcloud, semiAutomaticBranch, hcol, hpos, hclick1, hget]

/-- C2, amended: in semi-automatic mode, with `dist_k` the value the code computes in
single precision for `|a_k X + b_k Y + c_k Z + d_k| / sqrt (a_k^2 + b_k^2 + c_k^2)` at the
last clicked point, for every candidate list and every non-empty sequence of clicked
points such that some `dist_k` is below `FLT_MAX`, `compute` returns the coefficients of
the candidate at the least index `i` such that `dist_i < FLT_MAX` and no `dist_j` is less
than `dist_i` (the earlier candidates have a greater or a NaN distance); when no distance
is NaN this is the least index `i` such that `dist_i <= dist_j` for every `j`, so on a tie
the first candidate with the minimal distance wins. -/
theorem semiAutomatic_returns_closest (E : Env) (self : GroundplaneEstimation)
    (cloud : PointCloud) (last : Point)
    (hmode : self.ground_estimation_mode_ = 1) (hcloud : self.cloud_ = some cloud)
    (hclick : (clickedPoints E).getLast? = some last)
    (hvalid : ∃ r ∈ E.segmentAndRefine cloud,
      Flt.lt (planeDistance E.arith r.getCoefficients last.x last.y last.z) FLT_MAX = true) :
    ∃ (i : Nat) (region : PlanarRegion), (E.segmentAndRefine cloud)[i]? = some region ∧
      Flt.lt (planeDistance E.arith region.getCoefficients last.x last.y last.z) FLT_MAX
        = true ∧
      (∀ r ∈ E.segmentAndRefine cloud,
        Flt.lt (planeDistance E.arith r.getCoefficients last.x last.y last.z)
          (planeDistance E.arith region.getCoefficients last.x last.y last.z) = false) ∧
      (∀ (k : Nat) (rk : PlanarRegion), k < i → (E.segmentAndRefine cloud)[k]? = some rk →
        Flt.lt (planeDistance E.arith region.getCoefficients last.x last.y last.z)
          (planeDistance E.arith rk.getCoefficients last.x last.y last.z) = true ∨
        (planeDistance E.arith rk.getCoefficients last.x last.y last.z).isnan = true) ∧
      (∃ out, compute E self = some out ∧ out.ground_coeffs = region.getCoefficients) ∧
      ((∀ r ∈ E.segmentAndRefine cloud,
          (planeDistance E.arith r.getCoefficients last.x last.y last.z).isnan = false) →
        (∀ r ∈ E.segmentAndRefine cloud,
          Flt.le (planeDistance E.arith region.getCoefficients last.x last.y last.z)
            (planeDistance E.arith r.getCoefficients last.x last.y last.z) = true) ∧
        (∀ (k : Nat) (rk : PlanarRegion), k < i → (E.segmentAndRefine cloud)[k]? = some rk →
          ¬ ∀ r ∈ E.segmentAndRefine cloud,
            Flt.le (planeDistance E.arith rk.getCoefficients last.x last.y last.z)
              (planeDistance E.arith r.getCoefficients last.x last.y last.z) = true)) := by
  rcases closestLoop_spec E.arith last.x last.y last.z (E.segmentAndRefine cloud) 0 0 FLT_MAX
    with ⟨_, hall⟩ | ⟨j, rj, hget, he, hlt, hmin, hleast⟩
  · obtain ⟨r, hr, hv⟩ := hvalid
    rw [hall r hr] at hv
    exact absurd hv (by simp)
  · rw [Nat.zero_add] at he
    have hmem : rj ∈ E.segmentAndRefine cloud := List.getElem?_mem hget
    refine ⟨j, rj, hget, hlt, hmin, hleast, ?_, ?_⟩
    · exact compute_semiAutomatic E self cloud last rj hmode hcloud hclick (by rw [he]; exact hget)
    · intro hnan
      refine ⟨fun r hr => (Flt.lt_false_iff_ge (hnan r hr) (hnan rj hmem)).mp (hmin r hr), ?_⟩
      intro k rk hk hgk hallk
      have hrk : rk ∈ E.segmentAndRefine cloud := List.getElem?_mem hgk
      rcases hleast k rk hk hgk with h | h
      · have := Flt.le_false_of_lt h
        rw [hallk rj hmem] at this
        exact absurd this (by simp)
      · rw [hnan rk hrk] at h
        exact absurd h (by simp)

/-- C2, witness: with P1 the plane `z = 0`, P2 the plane `z = 5` and the picked point
`(0, 0, 0.1f)`, the coefficients of P1 are returned. -/
theorem semiAutomatic_returns_closest_witness :
    (compute (exampleEnv [planeAt 0 0 1 0 0, planeAt 0 0 1 (-5) 0]
        [pickAt (Flt.ofInt 0) (Flt.ofInt 0) (Flt.dyadic 13421773 27)])
      (exampleInstance 1)).map Output.ground_coeffs
      = some (planeAt 0 0 1 0 0).getCoefficients := by
  obtain ⟨i, region, hget, _, hmin, _, ⟨out, hout, hco⟩, _⟩ := semiAutomatic_returns_closest
    (exampleEnv [planeAt 0 0 1 0 0, planeAt 0 0 1 (-5) 0]
      [pickAt (Flt.ofInt 0) (Flt.ofInt 0) (Flt.dyadic 13421773 27)])
    (exampleInstance 1) [pointAt 0 0 0]
    ⟨Flt.ofInt 0, Flt.ofInt 0, Flt.dyadic 13421773 27, 0, 0, 0⟩ rfl rfl (by decide) (by decide)
  rw [hout, Option.map, hco]
  have hmem : region ∈ [planeAt 0 0 1 0 0, planeAt 0 0 1 (-5) 0] := List.getElem?_mem hget
  simp only [List.mem_cons, List.mem_singleton, List.not_mem_nil, or_false] at hmem
  rcases hmem with h | h
  · rw [h]
  · subst h
    have h1 := hmin (planeAt 0 0 1 0 0)
      (show planeAt 0 0 1 0 0 ∈ [planeAt 0 0 1 0 0, planeAt 0 0 1 (-5) 0] by decide)
    exact absurd h1 (by decide)

/-- C2, counterexample: the candidates are the planes `x + FLT_MAX = 0` and `x = 0`, both
with `(a, b, c) = (1, 0, 0)`, and the picked point is `(FLT_MAX, 0, 0)`.  The distances
computed are `+inf` and `FLT_MAX`, none below the initial `min_distance = FLT_MAX`, so the
index stays 0 and the coefficients of the first plane are returned, although the second
has the smaller distance: the returned vector is not that of a candidate of least
distance. -/
theorem semiAutomatic_returns_farther_plane :
    (∀ r ∈ [farPlane, planeAt 1 0 0 0 0],
      (r.getCoefficients.c0, r.getCoefficients.c1, r.getCoefficients.c2)
        ≠ (Flt.ofInt 0, Flt.ofInt 0, Flt.ofInt 0)) ∧
    planeDistance ieee32 farPlane.getCoefficients FLT_MAX (Flt.ofInt 0) (Flt.ofInt 0)
      = Flt.pinf ∧
    planeDistance ieee32 (planeAt 1 0 0 0 0).getCoefficients FLT_MAX (Flt.ofInt 0) (Flt.ofInt 0)
      = FLT_MAX ∧
    (compute (exampleEnv [farPlane, planeAt 1 0 0 0 0] [pickAt FLT_MAX (Flt.ofInt 0) (Flt.ofInt 0)])
      (exampleInstance 1)).map Output.ground_coeffs = some farPlane.getCoefficients ∧
    ¬ ∃ c ∈ [farPlane, planeAt 1 0 0 0 0],
        (∀ r ∈ [farPlane, planeAt 1 0 0 0 0],
          Flt.le (planeDistance ieee32 c.getCoefficients FLT_MAX (Flt.ofInt 0) (Flt.ofInt 0))
            (planeDistance ieee32 r.getCoefficients FLT_MAX (Flt.ofInt 0) (Flt.ofInt 0))
            = true) ∧
        (compute (exampleEnv [farPlane, planeAt 1 0 0 0 0]
            [pickAt FLT_MAX (Flt.ofInt 0) (Flt.ofInt 0)])
          (exampleInstance 1)).map Output.ground_coeffs = some c.getCoefficients := by
  decide

/-- The returned vector is the one computed without the colouring. -/
theorem compute_eq_withoutColoring (E : Env) (self : GroundplaneEstimation) :
    (compute E self).map Output.ground_coeffs = computeWithoutColoring E self := by
  cases hcloud : self.cloud_ with
  | none => simp [compute, computeWithoutColoring, hcloud]
  | some cloud =>
    by_cases h0 : self.ground_estimation_mode_ = 0
    · simp [compute, computeWithoutColoring, hcloud, h0, manualBranch, clickedPoints]
    · by_cases h1 : self.ground_estimation_mode_ = 1
      · obtain ⟨colored, hcol⟩ := colorRegions_some E cloud (E.segmentAndRefine cloud) (-1)
          (Or.inl rfl)
        simp only [compute, computeWithoutColoring, hcloud, h0, h1, if_false, if_true,
          Option.bind, semiAutomaticBranch, hcol, clickedPoints]
        by_cases hlen : (E.segmentAndRefine cloud).length > 0
        · simp only [hlen, if_true]
          cases (spin E.picks ([], [])).1.getLast? with
          | none => simp
          | some last =>
            simp only
            cases (E.segmentAndRefine cloud)[closestLoop E.arith last.x last.y last.z
              (E.segmentAndRefine cloud) 0 0 FLT_MAX]? with
            | none => simp
            | some region => simp
        · simp [hlen]
      · by_cases h2 : self.ground_estimation_mode_ = 2 ∨ self.ground_estimation_mode_ = 3
        · obtain ⟨out, hout, hco, _⟩ := compute_automatic E self cloud h2 hcloud
          rw [hout, Option.map, hco]
          simp only [computeWithoutColoring, hcloud, h0, h1, h2, if_false, if_true,
            eraseLoop_zero]
          cases E.sort planeHeightComparator ((E.segmentAndRefine cloud).filter compatible) with
          | nil => rfl
          | cons first rest => rfl
        · simp [compute, computeWithoutColoring, hcloud, h0, h1, h2]

/-- C10: `colorRegions` does not influence the result of `compute`: for every instance and
cloud, every candidate list and every two sources of random colour values, the vectors
returned in the two runs are the same, and equal to the vector computed with the calls of
`colorRegions` skipped, in which the selection reads the candidate list produced by the
segmentation (and by the removal loop and the sort) as it was before the colouring. -/
theorem colorRegions_does_not_influence_compute (E : Env) (self : GroundplaneEstimation)
    (rand1 rand2 : Nat → Nat) :
    (compute { E with rand := rand1 } self).map Output.ground_coeffs
      = (compute { E with rand := rand2 } self).map Output.ground_coeffs ∧
    (compute { E with rand := rand1 } self).map Output.ground_coeffs
      = computeWithoutColoring E self ∧
    computeWithoutColoring { E with rand := rand1 } self = computeWithoutColoring E self := by
  have h : ∀ r : Nat → Nat,
      computeWithoutColoring { E with rand := r } self = computeWithoutColoring E self :=
    fun _ => rfl
  refine ⟨?_, ?_, h rand1⟩
  · rw [compute_eq_withoutColoring, compute_eq_withoutColoring, h rand1, h rand2]
  · rw [compute_eq_withoutColoring, h rand1]

end OpenPtrack
